import Mathlib

/-!
# cron-safe: verification of the protected-task execution engine

Shallow embedding of `src/scheduler.ts` (the protected-task controller:
retry loop, backoff policy, overlap prevention, timeout handling, bounded
run history, notification dispatch) and of the `getHistory` accessor in
`src/index.ts`.

Modelling conventions:
* JavaScript numbers used by the engine (delays, attempt counters, history
  limits) are modelled as `Nat`; the source only ever uses them as
  non-negative integers.
* `new Date()` reads are modelled by a logical clock `clk : Nat` that is
  returned and incremented at each read.  No claim depends on real time.
* A thrown JavaScript value is `Thrown`: either an instance of the exported
  `TimeoutError` class, some other `Error` instance, or a non-`Error` value
  (relevant because the exhaustion path coerces non-`Error` values with
  `new Error(String(lastError))`).
* One invocation of the returned `protectedTask` closure is deterministic
  once we fix (a) what each `await task()` / `withTimeout(...)` settles
  with, and (b) how each call of the configured notifier behaves.  These
  are the `att` and `nb` scripts of `RunCtx`.  A notifier call can return
  normally, return a promise that later rejects (the `.catch` in
  `sendNotification` consumes the rejection and logs it), or throw
  synchronously — the source's `Promise.resolve(notifier(payload))`
  evaluates `notifier(payload)` before any handler is attached, so a
  synchronous throw escapes `sendNotification`.
* Lifecycle hooks (`onStart`, `onSuccess`, ...) are recorded as trace
  events at their call sites; the `?.` optional calls make an absent hook
  a no-op, and no claim concerns hook-raised failures, so hooks are
  modelled as non-failing observers.
* The asynchronous `console.error` in the notifier's `.catch` is recorded
  as a trace event at the dispatch site; nothing in the engine depends on
  its timing.
-/

namespace CronSafe

/-- The `triggeredBy` discriminator (`"schedule" | "manual"`). -/
inductive Trigger where
  | schedule
  | manual
deriving DecidableEq, Repr

/-- The `backoffStrategy` values: fixed, linear, exponential. -/
inductive Backoff where
  | fixed
  | linear
  | exponential
deriving DecidableEq, Repr

/-- Status of a run-history record. -/
inductive RunStatus where
  | running
  | success
  | failed
  | timeout
deriving DecidableEq, Repr

/-- Externally observable task status (`TaskState.status`). -/
inductive SchedStatus where
  | scheduled
  | running
  | stopped
deriving DecidableEq, Repr

/-- A thrown JavaScript value: an instance of the exported `TimeoutError`
class, some other `Error` instance, or a non-`Error` value.  The `tag`
stands for the value's identity / message. -/
inductive Thrown where
  | timeoutError (tag : Nat)
  | error (tag : Nat)
  | nonError (tag : Nat)
deriving DecidableEq, Repr

namespace Thrown

/-- Test `error instanceof TimeoutError` (scheduler.ts line 211). -/
def isTimeoutError : Thrown → Bool
  | .timeoutError _ => true
  | _ => false

/-- Coercion `lastError instanceof Error ? lastError : new Error(String(lastError))`
(scheduler.ts lines 252-253): `TimeoutError` extends `Error`, so only a
non-`Error` value is wrapped. -/
def coerceToError : Thrown → Thrown
  | .nonError t => .error t
  | e => e

end Thrown

/-- Notification event type (`NotificationPayload.event`). -/
inductive NotifEvent where
  | success
  | error
  | timeout
  | overlapSkip
deriving DecidableEq, Repr

/-- The `NotificationPayload<T>` sent to the notifier. -/
structure Payload (T : Type) where
  taskName : String
  event : NotifEvent
  timestamp : Nat
  duration : Option Nat := none
  result : Option T := none
  error : Option Thrown := none
  attemptsMade : Option Nat := none
deriving DecidableEq, Repr

/-- The effective per-event notification filter, after defaults
(`shouldNotify`, scheduler.ts lines 85-90). -/
structure NotifyOn where
  success : Bool
  error : Bool
  timeout : Bool
  overlapSkip : Bool
deriving DecidableEq, Repr

/-- Look up the filter for one event (`shouldNotify[payload.event]`). -/
def NotifyOn.get (n : NotifyOn) : NotifEvent → Bool
  | .success => n.success
  | .error => n.error
  | .timeout => n.timeout
  | .overlapSkip => n.overlapSkip

/-- The user-supplied `notifyOn` object: every field optional
(`notifyOn = {}` default, then per-field `??` defaults). -/
structure NotifyOnOpts where
  success : Option Bool := none
  error : Option Bool := none
  timeout : Option Bool := none
  overlapSkip : Option Bool := none
deriving DecidableEq, Repr

/-- The reliability-relevant part of `CronSafeOptions<T>` as supplied by
the user (all fields optional; defaults are applied by `mkCfg`, mirroring
the destructuring defaults in scheduler.ts lines 65-82).
`notifierPresent` records whether `options.notifier` is set. -/
structure Options where
  name : Option String := none
  retries : Option Nat := none
  retryDelay : Option Nat := none
  backoffStrategy : Option Backoff := none
  maxRetryDelay : Option Nat := none
  preventOverlap : Option Bool := none
  executionTimeout : Option Nat := none
  historyLimit : Option Nat := none
  notifierPresent : Bool := false
  notifyOn : NotifyOnOpts := {}
deriving DecidableEq, Repr

/-- Destructured configuration as used inside `createProtectedTask`:
option values with their defaults applied, plus the computed
`shouldNotify` record. -/
structure Cfg where
  name : String
  retries : Nat
  retryDelay : Nat
  backoffStrategy : Backoff
  maxRetryDelay : Option Nat
  preventOverlap : Bool
  executionTimeout : Option Nat
  historyLimit : Nat
  notifierPresent : Bool
  shouldNotify : NotifyOn
deriving DecidableEq, Repr

/-- The destructuring defaults of `createProtectedTask`
(scheduler.ts lines 65-90): `name = "unnamed-task"`, `retries = 0`,
`retryDelay = 0`, `backoffStrategy = "fixed"`, `preventOverlap = false`,
`historyLimit = 10`, and `shouldNotify` defaults
success/error/timeout to `true`, overlapSkip to `false`. -/
def mkCfg (o : Options) : Cfg where
  name := o.name.getD "unnamed-task"
  retries := o.retries.getD 0
  retryDelay := o.retryDelay.getD 0
  backoffStrategy := o.backoffStrategy.getD .fixed
  maxRetryDelay := o.maxRetryDelay
  preventOverlap := o.preventOverlap.getD false
  executionTimeout := o.executionTimeout
  historyLimit := o.historyLimit.getD 10
  notifierPresent := o.notifierPresent
  shouldNotify :=
    { success := o.notifyOn.success.getD true
      error := o.notifyOn.error.getD true
      timeout := o.notifyOn.timeout.getD true
      overlapSkip := o.notifyOn.overlapSkip.getD false }

/-- Function `calculateRetryDelay` (scheduler.ts lines 109-134): backoff delay for
the 1-indexed retry number `attempt`, then the optional `maxRetryDelay`
cap. -/
def calculateRetryDelay (cfg : Cfg) (attempt : Nat) : Nat :=
  let delay :=
    match cfg.backoffStrategy with
    | .linear => cfg.retryDelay * attempt
    | .exponential => cfg.retryDelay * 2 ^ attempt
    | .fixed => cfg.retryDelay
  match cfg.maxRetryDelay with
  | some m => if delay > m then m else delay
  | none => delay

/-- A `RunHistory` record (types.ts): `endedAt`/`duration`/`error` are
absent while the run is in progress. -/
structure RunHistory where
  startedAt : Nat
  endedAt : Option Nat := none
  duration : Option Nat := none
  status : RunStatus
  error : Option Thrown := none
  triggeredBy : Trigger
deriving DecidableEq, Repr

/-- Structure `TaskState` (scheduler.ts lines 13-17). -/
structure TaskState where
  isRunning : Bool
  status : SchedStatus
  history : List RunHistory
deriving DecidableEq, Repr

/-- Function `createTaskState` (scheduler.ts lines 273-279). -/
def createTaskState : TaskState :=
  { isRunning := false, status := .scheduled, history := [] }

/-- What one `await task()` (or `await withTimeout(task(), t)`) settles
with: a value, or a thrown/rejected value (a `TimeoutError` arises from
the race when `executionTimeout` is active, or from the task itself). -/
inductive TaskOutcome (T : Type) where
  | ok (v : T)
  | thrown (e : Thrown)
deriving DecidableEq, Repr

/-- Behaviour of one call of the configured notifier:
* `ok` — the call returns and its promise (if any) fulfils;
* `reject e` — the call returns a promise that rejects with `e`
  (consumed by the `.catch` in `sendNotification` and logged);
* `raise e` — the call throws `e` synchronously, which escapes
  `Promise.resolve(notifier(payload))` and hence `sendNotification`. -/
inductive NCall where
  | ok
  | reject (e : Thrown)
  | raise (e : Thrown)
deriving DecidableEq, Repr

/-- Discriminator for `NCall.raise`. -/
def NCall.isRaise : NCall → Bool
  | .raise _ => true
  | _ => false

/-- Per-invocation behaviour scripts: `att k` is what the `k`-th attempt's
await settles with (1-indexed), `nb j` is the behaviour of the `j`-th
notifier call of this invocation (0-indexed). -/
structure RunCtx (T : Type) where
  att : Nat → TaskOutcome T
  nb : Nat → NCall

/-- Observable events of one invocation, in program order. -/
inductive Ev (T : Type) where
  | taskExec (attempt : Nat)
  | hookStart
  | hookSuccess (v : T)
  | hookRetry (e : Thrown) (attempt : Nat)
  | hookError (e : Thrown)
  | hookTimeout (e : Thrown)
  | hookOverlapSkip
  | notified (p : Payload T)
  | loggedNotifierError (e : Thrown)
  | slept (ms : Nat)
deriving DecidableEq, Repr

/-- Function `sendNotification` (scheduler.ts lines 96-104): no-op without a
notifier or when the event is filtered out; otherwise the notifier is
invoked; a rejected completion is caught and logged; a synchronous throw
escapes (returned as `some e`).  `k` is the invocation's notifier-call
counter. -/
def sendNotification (cfg : Cfg) (nb : Nat → NCall) (k : Nat)
    (p : Payload T) : List (Ev T) × Nat × Option Thrown :=
  if !cfg.notifierPresent then ([], k, none)
  else if !(cfg.shouldNotify.get p.event) then ([], k, none)
  else
    match nb k with
    | .ok => ([.notified p], k + 1, none)
    | .reject e => ([.notified p, .loggedNotifierError e], k + 1, none)
    | .raise e => ([.notified p], k + 1, some e)

/-- Result of one invocation: the settled value of the returned promise
(`Except.error` = the promise rejected), the task state after the
invocation, the event trace, and the final logical clock. -/
structure RunOut (T : Type) where
  result : Except Thrown (Option T)
  state : TaskState
  trace : List (Ev T)
  clk : Nat
deriving Repr

/-- Replace the history's front record: within one (uninterleaved)
invocation the invocation's own record is the front element whenever it is
still present (`unshift` put it there and trimming only pops from the
back; it is gone only if `historyLimit = 0` evicted it immediately, in
which case the source's in-place mutation of the evicted object is not
visible in `state.history`). -/
def setHead (h : List RunHistory) (r : RunHistory) : List RunHistory :=
  match h with
  | [] => []
  | _ :: t => r :: t

variable {T : Type}

/-- The exhaustion block (scheduler.ts lines 247-266): finalize the
invocation's record as `failed` with the coerced error, invoke the error
hook with the raw `lastError`, dispatch an `error` notification carrying
the coerced error and the number of attempts performed, then reset
`isRunning`/`status` and return `undefined`.  A synchronous throw from the
notifier happens before the reset and escapes (nothing catches it here),
so the promise rejects and `isRunning` keeps its value.  `lastError =
none` would mean the loop never ran; it is unreachable from
`protectedTask` because `maxAttempts = retries + 1 ≥ 1`. -/
def exhaust (cfg : Cfg) (nb : Nat → NCall) (attempt notifK clk : Nat)
    (s : TaskState) (entry : RunHistory) (lastError : Option Thrown) :
    RunOut T :=
  let endedAt := clk
  let rawE := lastError.getD (.error 0)
  let coerced := rawE.coerceToError
  let entry' := { entry with
      endedAt := some endedAt
      duration := some (endedAt - entry.startedAt)
      status := .failed
      error := some coerced }
  let s1 := { s with history := setHead s.history entry' }
  let n := sendNotification cfg nb notifK
      { taskName := cfg.name, event := .error, timestamp := endedAt,
        duration := entry'.duration, error := some coerced,
        attemptsMade := some attempt }
  match n.2.2 with
  | some e2 => ⟨.error e2, s1, .hookError rawE :: n.1, clk + 1⟩
  | none =>
      ⟨.ok none, { s1 with isRunning := false, status := .scheduled },
        .hookError rawE :: n.1, clk + 1⟩

/-- The catch block of the attempt loop (scheduler.ts lines 207-244) for
an error `e` raised on attempt `attempt'` when `r` further attempts
remain.
* `e instanceof TimeoutError`: finalize the record as `timeout`, invoke
  the timeout hook then the error hook, dispatch a `timeout`
  notification, reset state and settle with `undefined`; a synchronous
  notifier throw is raised inside the `catch` clause, so it escapes the
  `try` statement before the reset (`.inl` with a rejected result).
* otherwise, if attempts remain (`attempt < maxAttempts` ⟺ `r > 0`):
  invoke the retry hook with `(e, attempt')`, wait the backoff delay if
  it is positive, and continue the loop (`.inr` with the iteration's
  events; the retry branch touches neither the clock, the notifier
  counter, nor the state).
* otherwise fall through to the exhaustion block. -/
def handleCatch (cfg : Cfg) (nb : Nat → NCall) (attempt' r notifK clk : Nat)
    (s : TaskState) (entry : RunHistory) (e : Thrown) :
    Sum (RunOut T) (List (Ev T)) :=
  if e.isTimeoutError then
    let endedAt := clk
    let entry' := { entry with
        endedAt := some endedAt
        duration := some (endedAt - entry.startedAt)
        status := .timeout
        error := some e }
    let s1 := { s with history := setHead s.history entry' }
    let n := sendNotification cfg nb notifK
        { taskName := cfg.name, event := .timeout, timestamp := endedAt,
          duration := entry'.duration, error := some e,
          attemptsMade := some attempt' }
    match n.2.2 with
    | some e2 =>
        .inl ⟨.error e2, s1, .hookTimeout e :: .hookError e :: n.1, clk + 1⟩
    | none =>
        .inl ⟨.ok none, { s1 with isRunning := false, status := .scheduled },
          .hookTimeout e :: .hookError e :: n.1, clk + 1⟩
  else if r > 0 then
    let delay := calculateRetryDelay cfg attempt'
    .inr (if delay > 0 then [.hookRetry e attempt', .slept delay]
          else [.hookRetry e attempt'])
  else
    .inl (exhaust cfg nb attempt' notifK clk s entry (some e))

/-- The attempt loop (`while (attempt < maxAttempts)`, scheduler.ts lines
176-245), with `remaining = maxAttempts - attempt` further iterations.
On success (what the `await` of `task()` — wrapped by `withTimeout` when
`executionTimeout` is set and positive — settles with): finalize the
record as `success`, invoke the success hook, dispatch a `success`
notification, reset state and return the result.  A synchronous throw
from the notifier on this path is raised inside the `try` block (line
196) and lands in the same `catch` as a task failure, with the success
finalization already applied to the record. -/
def attemptLoop (cfg : Cfg) (ctx : RunCtx T) :
    (remaining : Nat) → (attempt notifK clk : Nat) → TaskState →
    RunHistory → Option Thrown → RunOut T
  | 0, attempt, notifK, clk, s, entry, lastError =>
      exhaust cfg ctx.nb attempt notifK clk s entry lastError
  | r + 1, attempt, notifK, clk, s, entry, _ =>
    let attempt' := attempt + 1
    match ctx.att attempt' with
    | .ok v =>
        let endedAt := clk
        let entry' := { entry with
            endedAt := some endedAt
            duration := some (endedAt - entry.startedAt)
            status := .success }
        let s1 := { s with history := setHead s.history entry' }
        let n := sendNotification cfg ctx.nb notifK
            { taskName := cfg.name, event := .success, timestamp := endedAt,
              duration := entry'.duration, result := some v,
              attemptsMade := some attempt' }
        match n.2.2 with
        | none =>
            ⟨.ok (some v), { s1 with isRunning := false, status := .scheduled },
              .taskExec attempt' :: .hookSuccess v :: n.1, clk + 1⟩
        | some e2 =>
            match handleCatch cfg ctx.nb attempt' r n.2.1 (clk + 1) s1 entry' e2 with
            | .inl out =>
                { out with trace :=
                    .taskExec attempt' :: .hookSuccess v :: n.1 ++ out.trace }
            | .inr evs2 =>
                let out := attemptLoop cfg ctx r attempt' n.2.1 (clk + 1) s1 entry' (some e2)
                { out with trace :=
                    .taskExec attempt' :: .hookSuccess v :: n.1 ++ evs2 ++ out.trace }
    | .thrown e =>
        match handleCatch cfg ctx.nb attempt' r notifK clk s entry e with
        | .inl out => { out with trace := .taskExec attempt' :: out.trace }
        | .inr evs2 =>
            let out := attemptLoop cfg ctx r attempt' notifK clk s entry (some e)
            { out with trace := .taskExec attempt' :: (evs2 ++ out.trace) }

/-- One invocation of the `protectedTask` closure (scheduler.ts lines
136-267), from task state `s` at logical clock `clk`:
1. overlap check — if `preventOverlap && state.isRunning`, invoke the
   overlap-skip hook, dispatch an `overlapSkip` notification (whose
   payload reads the clock) and settle with `undefined`, touching
   nothing else;
2. otherwise mark running, create the history record, `unshift` it and
   trim to `historyLimit`, invoke the start hook, and run the attempt
   loop with `maxAttempts = retries + 1`. -/
def protectedTask (cfg : Cfg) (ctx : RunCtx T) (triggeredBy : Trigger)
    (s : TaskState) (clk : Nat) : RunOut T :=
  if cfg.preventOverlap && s.isRunning then
    let n := sendNotification cfg ctx.nb 0
        { taskName := cfg.name, event := .overlapSkip, timestamp := clk }
    match n.2.2 with
    | some e => ⟨.error e, s, .hookOverlapSkip :: n.1, clk + 1⟩
    | none => ⟨.ok none, s, .hookOverlapSkip :: n.1, clk + 1⟩
  else
    let entry : RunHistory :=
      { startedAt := clk, status := .running, triggeredBy := triggeredBy }
    let s2 : TaskState :=
      { isRunning := true, status := .running,
        history := (entry :: s.history).take cfg.historyLimit }
    let out := attemptLoop cfg ctx (cfg.retries + 1) 0 0 (clk + 1) s2 entry none
    { out with trace := Ev.hookStart :: out.trace }

/-- Function `getHistory` (index.ts lines 137-140): `return [...state.history]` —
a fresh array with the same elements.  Reference sharing of the elements
is analysed separately in the heap model below. -/
def getHistory (s : TaskState) : List RunHistory :=
  s.history

/-! ### Trace projections used to state the claims -/

/-- Attempt number of a task-execution event. -/
def execAttempt : Ev T → Option Nat
  | .taskExec a => some a
  | _ => none

/-- Argument pair of a retry-hook event. -/
def retryPair : Ev T → Option (Thrown × Nat)
  | .hookRetry e a => some (e, a)
  | _ => none

/-- Argument of an error-hook event. -/
def errorHookArg : Ev T → Option Thrown
  | .hookError e => some e
  | _ => none

/-- Argument of a timeout-hook event. -/
def timeoutHookArg : Ev T → Option Thrown
  | .hookTimeout e => some e
  | _ => none

/-- Payload of a notifier invocation event. -/
def notifiedPayload : Ev T → Option (Payload T)
  | .notified p => some p
  | _ => none

/-- Argument of a success-hook event. -/
def successHookArg : Ev T → Option T
  | .hookSuccess v => some v
  | _ => none

/-- Argument of a logged-notifier-error event. -/
def loggedArg : Ev T → Option Thrown
  | .loggedNotifierError e => some e
  | _ => none

/-! ### Basic lemmas about `sendNotification` and `setHead` -/

theorem sendNotification_no_raise (cfg : Cfg) (nb : Nat → NCall) (k : Nat)
    (p : Payload T) (hnb : ∀ j, (nb j).isRaise = false) :
    (sendNotification cfg nb k p).2.2 = none := by
  unfold sendNotification
  by_cases h1 : cfg.notifierPresent <;> simp [h1]
  by_cases h2 : cfg.shouldNotify.get p.event <;> simp [h2]
  have := hnb k
  cases hk : nb k <;> simp_all [NCall.isRaise]

theorem sendNotification_events_shape (cfg : Cfg) (nb : Nat → NCall) (k : Nat)
    (p : Payload T) :
    (sendNotification cfg nb k p).1 = [] ∨
    (sendNotification cfg nb k p).1 = [.notified p] ∨
    ∃ e, (sendNotification cfg nb k p).1 = [.notified p, .loggedNotifierError e] := by
  unfold sendNotification
  by_cases h1 : cfg.notifierPresent <;> simp [h1]
  by_cases h2 : cfg.shouldNotify.get p.event <;> simp [h2]
  cases hk : nb k <;> simp

/-- A projection that ignores notifier-related events sees nothing in the
events of a dispatch. -/
theorem sendNotification_filterMap_eq_nil (cfg : Cfg) (nb : Nat → NCall)
    (k : Nat) (p : Payload T) {β : Type} (f : Ev T → Option β)
    (hf1 : ∀ q, f (.notified q) = none)
    (hf2 : ∀ e, f (.loggedNotifierError e) = none) :
    (sendNotification cfg nb k p).1.filterMap f = [] := by
  rcases sendNotification_events_shape cfg nb k p with h | h | ⟨e, h⟩ <;>
    simp [h, hf1, hf2]

/-- Under the notification filter, a dispatch that cannot raise invokes
the notifier exactly when a notifier is configured and the event is
enabled. -/
theorem sendNotification_filterMap_notified (cfg : Cfg) (nb : Nat → NCall)
    (k : Nat) (p : Payload T) :
    (sendNotification cfg nb k p).1.filterMap notifiedPayload =
      (if cfg.notifierPresent && cfg.shouldNotify.get p.event then [p]
       else []) := by
  unfold sendNotification
  by_cases h1 : cfg.notifierPresent <;> simp [h1]
  by_cases h2 : cfg.shouldNotify.get p.event <;> simp [h2]
  cases hk : nb k <;> simp [notifiedPayload]

theorem setHead_setHead (h : List RunHistory) (a b : RunHistory) :
    setHead (setHead h a) b = setHead h b := by
  cases h <;> simp [setHead]

theorem setHead_length (h : List RunHistory) (a : RunHistory) :
    (setHead h a).length = h.length := by
  cases h <;> simp [setHead]

theorem setHead_cons (x : RunHistory) (t : List RunHistory) (a : RunHistory) :
    setHead (x :: t) a = a :: t := rfl

/-! ### C7 — backoff policy -/

/-- C7: for every 1-indexed retry number `n ≥ 1`, `calculateRetryDelay`
returns `retryDelay` for strategy `fixed`, `retryDelay * n` for `linear`,
and `retryDelay * 2 ^ n` for `exponential`, clamped to `maxRetryDelay`
when that cap is set and the computed value exceeds it (equivalently, the
minimum of the raw value and the cap).  The function is a plain total
function on naturals: pure, no side effects, no failure mode. -/
theorem C7_calculateRetryDelay_spec (cfg : Cfg) (n : Nat) (h : 1 ≤ n) :
    calculateRetryDelay cfg n =
      (let raw :=
        match cfg.backoffStrategy with
        | .fixed => cfg.retryDelay
        | .linear => cfg.retryDelay * n
        | .exponential => cfg.retryDelay * 2 ^ n
      match cfg.maxRetryDelay with
      | some m => min raw m
      | none => raw) := by
  unfold calculateRetryDelay
  cases hm : cfg.maxRetryDelay <;> cases hb : cfg.backoffStrategy <;>
    simp [hm, hb, Nat.min_def] <;> split_ifs <;> omega

/-! ### History shape of one invocation -/

theorem exhaust_history (cfg : Cfg) (nb : Nat → NCall)
    (attempt notifK clk : Nat) (s : TaskState) (entry : RunHistory)
    (le : Option Thrown) :
    ∃ hd, (exhaust (T := T) cfg nb attempt notifK clk s entry le).state.history =
      setHead s.history hd := by
  unfold exhaust
  dsimp only
  split <;> exact ⟨_, rfl⟩

theorem handleCatch_history (cfg : Cfg) (nb : Nat → NCall)
    (attempt' r notifK clk : Nat) (s : TaskState) (entry : RunHistory)
    (e : Thrown) (out : RunOut T)
    (h : handleCatch cfg nb attempt' r notifK clk s entry e = .inl out) :
    ∃ hd, out.state.history = setHead s.history hd := by
  unfold handleCatch at h
  dsimp only at h
  split at h
  · split at h <;> (injection h with h'; subst h'; exact ⟨_, rfl⟩)
  · split at h
    · exact absurd h (by simp)
    · injection h with h'
      subst h'
      exact exhaust_history cfg nb attempt' notifK clk s entry (some e)

theorem attemptLoop_history (cfg : Cfg) (ctx : RunCtx T) :
    ∀ r attempt notifK clk s entry le,
    ∃ hd, (attemptLoop cfg ctx r attempt notifK clk s entry le).state.history =
      setHead s.history hd := by
  intro r
  induction r with
  | zero =>
      intro attempt notifK clk s entry le
      exact exhaust_history cfg ctx.nb attempt notifK clk s entry le
  | succ r ih =>
      intro attempt notifK clk s entry le
      simp only [attemptLoop]
      cases hatt : ctx.att (attempt + 1) with
      | ok v =>
          simp only [hatt]
          try dsimp only
          split
          · exact ⟨_, rfl⟩
          · split
            · rename_i out heq
              rcases handleCatch_history _ _ _ _ _ _ _ _ _ _ heq with ⟨hd, hh⟩
              refine ⟨hd, ?_⟩
              dsimp only
              rw [hh]
              simp [setHead_setHead]
            · obtain ⟨hd, hh⟩ := ih (attempt + 1) _ _ _ _ _
              refine ⟨hd, ?_⟩
              dsimp only
              rw [hh]
              simp [setHead_setHead]
      | thrown e =>
          simp only [hatt]
          try dsimp only
          split
          · rename_i out heq
            obtain ⟨hd, hh⟩ := handleCatch_history _ _ _ _ _ _ _ _ _ _ heq
            exact ⟨hd, hh⟩
          · obtain ⟨hd, hh⟩ := ih (attempt + 1) notifK clk s entry (some e)
            exact ⟨hd, hh⟩

/-- A non-skipped invocation from a state whose `historyLimit` is at
least 1: the final history is the invocation's (finalized) record in
front of the old records, trimmed from the back to the limit. -/
theorem protectedTask_history_nonskip (cfg : Cfg) (ctx : RunCtx T)
    (trig : Trigger) (s : TaskState) (clk : Nat)
    (hns : cfg.preventOverlap = false ∨ s.isRunning = false)
    (hlim : 1 ≤ cfg.historyLimit) :
    ∃ hd, (protectedTask cfg ctx trig s clk).state.history =
      hd :: s.history.take (cfg.historyLimit - 1) := by
  have hcond : (cfg.preventOverlap && s.isRunning) = false := by
    rcases hns with h | h <;> simp [h]
  unfold protectedTask
  rw [hcond]
  simp only [Bool.false_eq_true, if_false]
  obtain ⟨m, hm⟩ : ∃ m, cfg.historyLimit = m + 1 :=
    ⟨cfg.historyLimit - 1, by omega⟩
  obtain ⟨hd, hh⟩ := attemptLoop_history cfg ctx (cfg.retries + 1) 0 0 (clk + 1) _ _ none
  refine ⟨hd, ?_⟩
  dsimp only
  rw [hh]
  simp [hm, List.take_succ_cons, setHead_cons]

/-! ### C5 — overlap skip -/

/-- Configuration with `preventOverlap`, a notifier, and `overlapSkip`
notifications enabled. -/
def cfgC5 : Cfg :=
  mkCfg { preventOverlap := some true, notifierPresent := true, notifyOn := { overlapSkip := some true } }

/-- A task state with an invocation in flight. -/
def sRunningW : TaskState :=
  { isRunning := true, status := .running, history := [] }

/-- A notifier whose every call throws synchronously. -/
def ctxRaiseC5 : RunCtx Nat :=
  { att := fun _ => .ok 0, nb := fun _ => .raise (.error 77) }

/-- A well-behaved notifier. -/
def ctxOkC5 : RunCtx Nat :=
  { att := fun _ => .ok 1, nb := fun _ => .ok }

/-- C5 as stated is false: when the configured notifier throws
synchronously, the overlap-skip path propagates that throw to the caller
(the promise returned by `invoke` rejects) instead of returning `absent`
— even though the task state is indeed left unchanged. -/
theorem C5_counterexample :
    (protectedTask cfgC5 ctxRaiseC5 .manual sRunningW 0).result =
      .error (.error 77) ∧
    (protectedTask cfgC5 ctxRaiseC5 .manual sRunningW 0).state = sRunningW :=
  ⟨rfl, rfl⟩

/-- C5 (amended: provided the notifier never throws synchronously —
asynchronous rejections are fine): an invocation arriving while
`preventOverlap` is set and `isRunning` is true invokes the overlap-skip
hook, dispatches an `overlapSkip` notification subject to the `notifyOn`
filter, settles with `absent`, leaves the entire task state unchanged
(in particular no history entry is added or modified and `isRunning` /
`status` keep their prior values), and never executes the task; and this
is the only path that records nothing: any invocation that is not
skipped (here: one starting with `isRunning = false`, under a
spec-legal `historyLimit ≥ 1`) puts a new record at the front of the
history. -/
theorem C5_overlap_skip_frame (cfg : Cfg) (ctx : RunCtx T) (trig : Trigger)
    (s : TaskState) (clk : Nat)
    (hov : cfg.preventOverlap = true) (hrun : s.isRunning = true)
    (hnb : ∀ j, (ctx.nb j).isRaise = false) :
    (protectedTask cfg ctx trig s clk).result = .ok none ∧
    (protectedTask cfg ctx trig s clk).state = s ∧
    (protectedTask cfg ctx trig s clk).trace =
      .hookOverlapSkip :: (sendNotification cfg ctx.nb 0
        { taskName := cfg.name, event := .overlapSkip, timestamp := clk }).1 ∧
    (protectedTask cfg ctx trig s clk).trace.filterMap notifiedPayload =
      (if cfg.notifierPresent && cfg.shouldNotify.get NotifEvent.overlapSkip then
        [{ taskName := cfg.name, event := .overlapSkip, timestamp := clk }]
      else []) ∧
    (protectedTask cfg ctx trig s clk).trace.filterMap execAttempt = [] ∧
    (∀ ctx' : RunCtx T, ∀ trig' s' clk', s'.isRunning = false →
      1 ≤ cfg.historyLimit →
      ∃ hd, (protectedTask cfg ctx' trig' s' clk').state.history =
        hd :: s'.history.take (cfg.historyLimit - 1)) := by
  have hq := sendNotification_no_raise cfg ctx.nb 0
    ({ taskName := cfg.name, event := .overlapSkip, timestamp := clk } : Payload T) hnb
  have hmain : protectedTask cfg ctx trig s clk =
      ⟨.ok none, s, .hookOverlapSkip :: (sendNotification cfg ctx.nb 0
        { taskName := cfg.name, event := .overlapSkip, timestamp := clk }).1,
        clk + 1⟩ := by
    unfold protectedTask
    simp only [hov, hrun, Bool.and_self, if_true]
    rw [hq]
  rw [hmain]
  refine ⟨rfl, rfl, rfl, ?_, ?_, ?_⟩
  · simp only [List.filterMap_cons, notifiedPayload]
    rw [sendNotification_filterMap_notified]
  · simp only [List.filterMap_cons, execAttempt]
    exact sendNotification_filterMap_eq_nil cfg ctx.nb 0 _ _
      (fun q => rfl) (fun e => rfl)
  · intro ctx' trig' s' clk' hrun' hlim
    exact protectedTask_history_nonskip cfg ctx' trig' s' clk' (Or.inr hrun') hlim

/-- Witness for C5 at a concrete overlap-skip invocation. -/
theorem C5_overlap_skip_frame_witness :
    cfgC5.preventOverlap = true ∧ sRunningW.isRunning = true ∧
    (∀ j, (ctxOkC5.nb j).isRaise = false) ∧
    ((protectedTask cfgC5 ctxOkC5 .manual sRunningW 0).result = .ok none ∧
     (protectedTask cfgC5 ctxOkC5 .manual sRunningW 0).state = sRunningW ∧
     (protectedTask cfgC5 ctxOkC5 .manual sRunningW 0).trace =
       .hookOverlapSkip :: (sendNotification cfgC5 ctxOkC5.nb 0
         { taskName := cfgC5.name, event := .overlapSkip, timestamp := 0 }).1 ∧
     (protectedTask cfgC5 ctxOkC5 .manual sRunningW 0).trace.filterMap notifiedPayload =
       (if cfgC5.notifierPresent && cfgC5.shouldNotify.get NotifEvent.overlapSkip then
         [{ taskName := cfgC5.name, event := .overlapSkip, timestamp := 0 }]
       else []) ∧
     (protectedTask cfgC5 ctxOkC5 .manual sRunningW 0).trace.filterMap execAttempt = [] ∧
     (∀ ctx' : RunCtx Nat, ∀ trig' s' clk', s'.isRunning = false →
       1 ≤ cfgC5.historyLimit →
       ∃ hd, (protectedTask cfgC5 ctx' trig' s' clk').state.history =
         hd :: s'.history.take (cfgC5.historyLimit - 1))) :=
  ⟨rfl, rfl, fun _ => rfl,
   C5_overlap_skip_frame cfgC5 ctxOkC5 .manual sRunningW 0 rfl rfl (fun _ => rfl)⟩

/-! ### C1 / C2 — notifier-failure isolation and no-raise-to-caller

The source's `sendNotification` catches only *asynchronous* notifier
failures: `Promise.resolve(notifier(payload)).catch(...)` evaluates
`notifier(payload)` before any handler is attached, so a notifier that
throws synchronously escapes — contradicting `sendNotification`'s own
doc comment ("catches errors to avoid breaking task execution") and the
spec's isolation requirement.  The two theorems below evaluate the
engine at such failing inputs. -/

/-- Retries 1, notifier configured, defaults otherwise. -/
def cfgC1 : Cfg := mkCfg { retries := some 1, notifierPresent := true }

/-- Task succeeds with 42 on attempt 1 and 7 on attempt 2; the notifier's
first call throws synchronously. -/
def ctxC1raise : RunCtx Nat :=
  { att := fun k => if k = 1 then .ok 42 else .ok 7,
    nb := fun j => if j = 0 then .raise (.error 77) else .ok }

/-- Same task with a well-behaved notifier. -/
def ctxC1ok : RunCtx Nat :=
  { att := fun k => if k = 1 then .ok 42 else .ok 7, nb := fun _ => .ok }

/-- C1 failing input, evaluated: with a synchronously-throwing notifier
the success-path dispatch (line 196) is raised inside the `try` block and
caught by the task's own `catch` (line 207); the engine then *retries*
the already-succeeded task (the retry hook fires with the notifier's own
error) and returns the second attempt's value 7 — whereas the identical
run with a well-behaved notifier executes the task once and returns 42.
The notifier failure was not routed to the diagnostic log and it changed
the invocation's result, refuting the claimed isolation. -/
theorem C1_sync_throw_breaks_isolation :
    (protectedTask cfgC1 ctxC1raise .manual createTaskState 0).result =
      .ok (some 7) ∧
    (protectedTask cfgC1 ctxC1ok .manual createTaskState 0).result =
      .ok (some 42) ∧
    (protectedTask cfgC1 ctxC1raise .manual createTaskState 0).trace.filterMap
      execAttempt = [1, 2] ∧
    (protectedTask cfgC1 ctxC1ok .manual createTaskState 0).trace.filterMap
      execAttempt = [1] ∧
    (protectedTask cfgC1 ctxC1raise .manual createTaskState 0).trace.filterMap
      retryPair = [(.error 77, 1)] ∧
    (protectedTask cfgC1 ctxC1raise .manual createTaskState 0).trace.filterMap
      loggedArg = [] :=
  ⟨rfl, rfl, rfl, rfl, rfl, rfl⟩

/-- Retries 0, notifier configured, defaults otherwise. -/
def cfgC2 : Cfg := mkCfg { notifierPresent := true }

/-- Task always fails with a generic error; every notifier call throws
synchronously. -/
def ctxC2 : RunCtx Nat :=
  { att := fun _ => .thrown (.error 5), nb := fun _ => .raise (.error 77) }

/-- C2 failing input, evaluated: on the exhausted-retries path the
notification dispatch (line 256) runs outside any `try`, so the
synchronously-throwing notifier makes the promise returned by the
invocation *reject* with the notifier's error — the caller receives a
raised failure instead of the `absent` result — and the reset at lines
264-265 is never reached, leaving `isRunning` stuck at `true`. -/
theorem C2_sync_throw_propagates_to_caller :
    (protectedTask cfgC2 ctxC2 .manual createTaskState 0).result =
      .error (.error 77) ∧
    (protectedTask cfgC2 ctxC2 .manual createTaskState 0).state.isRunning =
      true ∧
    (protectedTask cfgC2 ctxC2 .manual createTaskState 0).state.status =
      .running :=
  ⟨rfl, rfl, rfl⟩

/-! ### C6 — always-failing task, retries budget -/

/-- The fresh history record created at the start of a non-skipped
invocation (scheduler.ts lines 155-159). -/
def startEntry (clk : Nat) (trig : Trigger) : RunHistory :=
  { startedAt := clk, status := .running, triggeredBy := trig }

/-- The invocation's record finalized as `failed` at time `d` with the
coerced error (scheduler.ts lines 248-253). -/
def failFinal (entry : RunHistory) (d : Nat) (e : Thrown) : RunHistory :=
  { entry with
      endedAt := some d
      duration := some (d - entry.startedAt)
      status := .failed
      error := some e.coerceToError }

/-- The `error` notification payload of the exhaustion block
(scheduler.ts lines 256-263). -/
def errPayload (T : Type) (cfg : Cfg) (d : Nat) (entry : RunHistory)
    (e : Thrown) (attempt : Nat) : Payload T :=
  { taskName := cfg.name, event := .error, timestamp := d,
    duration := some (d - entry.startedAt), error := some e.coerceToError,
    attemptsMade := some attempt }

/-- The list `[a, a+1, ..., a+n-1]`. -/
def attemptNums (a : Nat) : Nat → List Nat
  | 0 => []
  | n + 1 => a :: attemptNums (a + 1) n

/-- Retry-hook argument pairs for attempts `a, a+1, ..., a+n-1`. -/
def retrySeq (errs : Nat → Thrown) (a : Nat) : Nat → List (Thrown × Nat)
  | 0 => []
  | n + 1 => (errs a, a) :: retrySeq errs (a + 1) n

theorem attemptNums_eq_range' (a n : Nat) :
    attemptNums a n = List.range' a n := by
  induction n generalizing a with
  | zero => rfl
  | succ n ih => simp [attemptNums, List.range', ih]

/-- The event trace of an attempt loop all of whose attempts fail with
the non-timeout errors `errs`, entered with `remaining = r + 1` at
attempt counter `a`, notifier counter `k`, clock `clk`. -/
def allFailTrace (cfg : Cfg) (nb : Nat → NCall) (errs : Nat → Thrown)
    (entry : RunHistory) : (r a k clk : Nat) → List (Ev T)
  | 0, a, k, clk =>
      .taskExec (a + 1) :: .hookError (errs (a + 1)) ::
        (sendNotification cfg nb k
          (errPayload T cfg clk entry (errs (a + 1)) (a + 1))).1
  | r + 1, a, k, clk =>
      .taskExec (a + 1) ::
        ((if calculateRetryDelay cfg (a + 1) > 0 then
            [.hookRetry (errs (a + 1)) (a + 1),
             .slept (calculateRetryDelay cfg (a + 1))]
          else [.hookRetry (errs (a + 1)) (a + 1)]) ++
          allFailTrace cfg nb errs entry r (a + 1) k clk)

/-- Evaluation of the exhaustion block under a notifier that never
throws synchronously. -/
theorem exhaust_spec (cfg : Cfg) (nb : Nat → NCall)
    (attempt notifK clk : Nat) (s : TaskState) (entry : RunHistory)
    (e : Thrown) (hnb : ∀ j, (nb j).isRaise = false) :
    exhaust (T := T) cfg nb attempt notifK clk s entry (some e) =
      ⟨.ok none,
       { isRunning := false, status := .scheduled,
         history := setHead s.history (failFinal entry clk e) },
       .hookError e ::
         (sendNotification cfg nb notifK
           (errPayload T cfg clk entry e attempt)).1,
       clk + 1⟩ := by
  unfold exhaust
  dsimp only
  rw [sendNotification_no_raise cfg nb notifK _ hnb]
  rfl

/-- The catch block retries when the error is not a `TimeoutError` and
attempts remain. -/
theorem handleCatch_retry (cfg : Cfg) (nb : Nat → NCall)
    (attempt' r notifK clk : Nat) (s : TaskState) (entry : RunHistory)
    (e : Thrown) (hnt : e.isTimeoutError = false) (hr : 0 < r) :
    handleCatch (T := T) cfg nb attempt' r notifK clk s entry e =
      .inr (if calculateRetryDelay cfg attempt' > 0 then
              [.hookRetry e attempt', .slept (calculateRetryDelay cfg attempt')]
            else [.hookRetry e attempt']) := by
  unfold handleCatch
  simp [hnt, hr]

/-- The catch block falls through to the exhaustion block when the error
is not a `TimeoutError` and no attempts remain. -/
theorem handleCatch_exhaust (cfg : Cfg) (nb : Nat → NCall)
    (attempt' notifK clk : Nat) (s : TaskState) (entry : RunHistory)
    (e : Thrown) (hnt : e.isTimeoutError = false) :
    handleCatch (T := T) cfg nb attempt' 0 notifK clk s entry e =
      .inl (exhaust cfg nb attempt' notifK clk s entry (some e)) := by
  unfold handleCatch
  simp [hnt]

/-- Characterization of the attempt loop when every attempt fails with a
non-timeout error and the notifier never throws synchronously: the loop
runs all `r + 1` attempts, leaves the record finalized as `failed` with
the last error, resets the state, settles with `absent`, and produces
exactly the `allFailTrace` events. -/
theorem attemptLoop_allFail (cfg : Cfg) (ctx : RunCtx T) (errs : Nat → Thrown)
    (hfail : ∀ k, ctx.att k = .thrown (errs k))
    (hnt : ∀ k, (errs k).isTimeoutError = false)
    (hnb : ∀ j, (ctx.nb j).isRaise = false) :
    ∀ r attempt notifK clk s entry le,
    attemptLoop cfg ctx (r + 1) attempt notifK clk s entry le =
      ⟨.ok none,
       { isRunning := false, status := .scheduled,
         history := setHead s.history
           (failFinal entry clk (errs (attempt + (r + 1)))) },
       allFailTrace cfg ctx.nb errs entry r attempt notifK clk,
       clk + 1⟩ := by
  intro r
  induction r with
  | zero =>
      intro attempt notifK clk s entry le
      simp only [attemptLoop, hfail]
      rw [handleCatch_exhaust cfg ctx.nb (attempt + 1) notifK clk s entry
        (errs (attempt + 1)) (hnt (attempt + 1))]
      dsimp only
      rw [exhaust_spec cfg ctx.nb (attempt + 1) notifK clk s entry
        (errs (attempt + 1)) hnb]
      rfl
  | succ r ih =>
      intro attempt notifK clk s entry le
      conv_lhs => rw [attemptLoop]
      rw [hfail (attempt + 1)]
      dsimp only
      rw [handleCatch_retry cfg ctx.nb (attempt + 1) (r + 1) notifK clk s entry
        (errs (attempt + 1)) (hnt (attempt + 1)) (Nat.succ_pos r)]
      dsimp only
      rw [ih (attempt + 1) notifK clk s entry (some (errs (attempt + 1)))]
      have hidx : attempt + 1 + (r + 1) = attempt + (r + 1 + 1) := by omega
      rw [hidx]
      rfl

theorem allFailTrace_exec (cfg : Cfg) (nb : Nat → NCall) (errs : Nat → Thrown)
    (entry : RunHistory) :
    ∀ r a k clk,
    (allFailTrace (T := T) cfg nb errs entry r a k clk).filterMap execAttempt =
      attemptNums (a + 1) (r + 1) := by
  intro r
  induction r with
  | zero =>
      intro a k clk
      simp [allFailTrace, execAttempt, attemptNums,
        sendNotification_filterMap_eq_nil cfg nb k
          (errPayload T cfg clk entry (errs (a + 1)) (a + 1)) execAttempt
          (fun q => rfl) (fun e => rfl)]
  | succ r ih =>
      intro a k clk
      by_cases hd : calculateRetryDelay cfg (a + 1) > 0 <;>
        simp [allFailTrace, execAttempt, attemptNums, hd, ih]

theorem allFailTrace_retry (cfg : Cfg) (nb : Nat → NCall) (errs : Nat → Thrown)
    (entry : RunHistory) :
    ∀ r a k clk,
    (allFailTrace (T := T) cfg nb errs entry r a k clk).filterMap retryPair =
      retrySeq errs (a + 1) r := by
  intro r
  induction r with
  | zero =>
      intro a k clk
      simp [allFailTrace, retryPair, retrySeq,
        sendNotification_filterMap_eq_nil cfg nb k
          (errPayload T cfg clk entry (errs (a + 1)) (a + 1)) retryPair
          (fun q => rfl) (fun e => rfl)]
  | succ r ih =>
      intro a k clk
      by_cases hd : calculateRetryDelay cfg (a + 1) > 0 <;>
        simp [allFailTrace, retryPair, retrySeq, hd, ih]

theorem allFailTrace_error (cfg : Cfg) (nb : Nat → NCall) (errs : Nat → Thrown)
    (entry : RunHistory) :
    ∀ r a k clk,
    (allFailTrace (T := T) cfg nb errs entry r a k clk).filterMap errorHookArg =
      [errs (a + r + 1)] := by
  intro r
  induction r with
  | zero =>
      intro a k clk
      simp [allFailTrace, errorHookArg,
        sendNotification_filterMap_eq_nil cfg nb k
          (errPayload T cfg clk entry (errs (a + 1)) (a + 1)) errorHookArg
          (fun q => rfl) (fun e => rfl)]
  | succ r ih =>
      intro a k clk
      have hidx : a + 1 + r + 1 = a + (r + 1) + 1 := by omega
      by_cases hd : calculateRetryDelay cfg (a + 1) > 0 <;>
        simp [allFailTrace, errorHookArg, hd, ih, hidx]

theorem attemptNums_length (a n : Nat) : (attemptNums a n).length = n := by
  induction n generalizing a with
  | zero => rfl
  | succ n ih => simp [attemptNums, ih]

/-- C6 counterexample input: retries 0, always-failing task, notifier
whose calls throw synchronously. -/
def ctxC6x : RunCtx Nat :=
  { att := fun _ => .thrown (.error 5), nb := fun _ => .raise (.error 77) }

/-- C6 as universally stated is false: with a notifier that throws
synchronously, the exhaustion-path dispatch escapes, so the invocation
does not return `absent` — its promise rejects (even though the task ran
exactly `r + 1 = 1` times, the retry hook never fired, and the error hook
fired once). -/
theorem C6_counterexample :
    (protectedTask (mkCfg { notifierPresent := true }) ctxC6x .manual
      createTaskState 0).result = .error (.error 77) ∧
    (protectedTask (mkCfg { notifierPresent := true }) ctxC6x .manual
      createTaskState 0).trace.filterMap execAttempt = [1] :=
  ⟨rfl, rfl⟩

/-- C6 (amended: provided the notifier never throws synchronously): for
every retries budget `r` and a task failing on every attempt with
non-timeout errors `errs`, one non-skipped invocation executes the task
exactly `r + 1` times (attempts `1..r+1`), fires the retry hook exactly
`r` times with `(errs i, i)` for `i = 1..r` in increasing order, fires
the error hook exactly once with the raw last error, finalizes the
history record as `failed` with the (coerced) last error, resets
`isRunning`/`status`, and settles with `absent`. -/
theorem C6_retry_budget (cfg : Cfg) (ctx : RunCtx T) (errs : Nat → Thrown)
    (trig : Trigger) (s : TaskState) (clk : Nat)
    (hfail : ∀ k, ctx.att k = .thrown (errs k))
    (hnt : ∀ k, (errs k).isTimeoutError = false)
    (hnb : ∀ j, (ctx.nb j).isRaise = false)
    (hto : cfg.executionTimeout = none)
    (hns : cfg.preventOverlap = false ∨ s.isRunning = false)
    (hlim : 1 ≤ cfg.historyLimit) :
    (protectedTask cfg ctx trig s clk).result = .ok none ∧
    (protectedTask cfg ctx trig s clk).trace.filterMap execAttempt =
      attemptNums 1 (cfg.retries + 1) ∧
    ((protectedTask cfg ctx trig s clk).trace.filterMap execAttempt).length =
      cfg.retries + 1 ∧
    (protectedTask cfg ctx trig s clk).trace.filterMap retryPair =
      retrySeq errs 1 cfg.retries ∧
    (protectedTask cfg ctx trig s clk).trace.filterMap errorHookArg =
      [errs (cfg.retries + 1)] ∧
    (protectedTask cfg ctx trig s clk).state.isRunning = false ∧
    (protectedTask cfg ctx trig s clk).state.status = .scheduled ∧
    (∃ hd, (protectedTask cfg ctx trig s clk).state.history.head? = some hd ∧
      hd.status = .failed ∧
      hd.error = some ((errs (cfg.retries + 1)).coerceToError)) := by
  have hcond : (cfg.preventOverlap && s.isRunning) = false := by
    rcases hns with h | h <;> simp [h]
  have hmain : protectedTask cfg ctx trig s clk =
      ⟨.ok none,
       { isRunning := false, status := .scheduled,
         history := setHead
           ((startEntry clk trig :: s.history).take cfg.historyLimit)
           (failFinal (startEntry clk trig) (clk + 1) (errs (cfg.retries + 1))) },
       .hookStart :: allFailTrace cfg ctx.nb errs (startEntry clk trig)
         cfg.retries 0 0 (clk + 1),
       clk + 1 + 1⟩ := by
    unfold protectedTask
    rw [hcond]
    simp only [Bool.false_eq_true, if_false]
    rw [attemptLoop_allFail cfg ctx errs hfail hnt hnb cfg.retries 0 0 (clk + 1)
      _ _ none]
    simp only [Nat.zero_add]
    rfl
  rw [hmain]
  obtain ⟨m, hm⟩ : ∃ m, cfg.historyLimit = m + 1 :=
    ⟨cfg.historyLimit - 1, by omega⟩
  refine ⟨rfl, ?_, ?_, ?_, ?_, rfl, rfl, ?_⟩
  · simp [List.filterMap_cons, execAttempt, allFailTrace_exec]
  · simp [List.filterMap_cons, execAttempt, allFailTrace_exec,
      attemptNums_length]
  · simp [List.filterMap_cons, retryPair, allFailTrace_retry]
  · simp [List.filterMap_cons, errorHookArg, allFailTrace_error]
  · refine ⟨failFinal (startEntry clk trig) (clk + 1) (errs (cfg.retries + 1)),
      ?_, rfl, rfl⟩
    simp [hm, List.take_succ_cons, setHead_cons]

/-- Always-failing context with a well-behaved notifier, for the C6
witness. -/
def ctxC6w : RunCtx Nat :=
  { att := fun k => .thrown (.error k), nb := fun _ => .ok }

/-- Witness for C6 at retries 2: three executions, two retry-hook
firings with attempts 1 and 2, one error-hook firing with the third
error. -/
theorem C6_retry_budget_witness :
    (∀ k, ctxC6w.att k = .thrown (Thrown.error k)) ∧
    (∀ k, (Thrown.error k).isTimeoutError = false) ∧
    (∀ j, (ctxC6w.nb j).isRaise = false) ∧
    ((protectedTask (mkCfg { retries := some 2 }) ctxC6w .manual
        createTaskState 0).result = .ok none ∧
     (protectedTask (mkCfg { retries := some 2 }) ctxC6w .manual
        createTaskState 0).trace.filterMap execAttempt =
       attemptNums 1 ((mkCfg { retries := some 2 }).retries + 1) ∧
     ((protectedTask (mkCfg { retries := some 2 }) ctxC6w .manual
        createTaskState 0).trace.filterMap execAttempt).length =
       (mkCfg { retries := some 2 }).retries + 1 ∧
     (protectedTask (mkCfg { retries := some 2 }) ctxC6w .manual
        createTaskState 0).trace.filterMap retryPair =
       retrySeq (fun k => Thrown.error k) 1 (mkCfg { retries := some 2 }).retries ∧
     (protectedTask (mkCfg { retries := some 2 }) ctxC6w .manual
        createTaskState 0).trace.filterMap errorHookArg =
       [Thrown.error ((mkCfg { retries := some 2 }).retries + 1)] ∧
     (protectedTask (mkCfg { retries := some 2 }) ctxC6w .manual
        createTaskState 0).state.isRunning = false ∧
     (protectedTask (mkCfg { retries := some 2 }) ctxC6w .manual
        createTaskState 0).state.status = .scheduled ∧
     (∃ hd, (protectedTask (mkCfg { retries := some 2 }) ctxC6w .manual
        createTaskState 0).state.history.head? = some hd ∧
       hd.status = .failed ∧
       hd.error = some ((Thrown.error ((mkCfg { retries := some 2 }).retries + 1)).coerceToError))) :=
  ⟨fun _ => rfl, fun _ => rfl, fun _ => rfl,
   C6_retry_budget (mkCfg { retries := some 2 }) ctxC6w
     (fun k => Thrown.error k) .manual createTaskState 0
     (fun _ => rfl) (fun _ => rfl) (fun _ => rfl) rfl
     (Or.inl rfl) (by decide)⟩

/-! ### C3 / C10 — timeout outcomes are terminal -/

/-- The invocation's record finalized as `timeout` at time `d`
(scheduler.ts lines 212-216). -/
def tmoFinal (entry : RunHistory) (d : Nat) (e : Thrown) : RunHistory :=
  { entry with
      endedAt := some d
      duration := some (d - entry.startedAt)
      status := .timeout
      error := some e }

/-- The `timeout` notification payload (scheduler.ts lines 220-227). -/
def tmoPayload (T : Type) (cfg : Cfg) (d : Nat) (entry : RunHistory)
    (e : Thrown) (attempt : Nat) : Payload T :=
  { taskName := cfg.name, event := .timeout, timestamp := d,
    duration := some (d - entry.startedAt), error := some e,
    attemptsMade := some attempt }

/-- Evaluation of the catch block on a `TimeoutError` under a notifier
that never throws synchronously: finalize as `timeout`, fire the timeout
hook then the error hook, dispatch, reset, settle with `undefined` —
regardless of the remaining budget `r`. -/
theorem handleCatch_timeout (cfg : Cfg) (nb : Nat → NCall)
    (attempt' r notifK clk : Nat) (s : TaskState) (entry : RunHistory)
    (e : Thrown) (he : e.isTimeoutError = true)
    (hnb : ∀ j, (nb j).isRaise = false) :
    handleCatch (T := T) cfg nb attempt' r notifK clk s entry e =
      .inl ⟨.ok none,
        { isRunning := false, status := .scheduled,
          history := setHead s.history (tmoFinal entry clk e) },
        .hookTimeout e :: .hookError e ::
          (sendNotification cfg nb notifK
            (tmoPayload T cfg clk entry e attempt')).1,
        clk + 1⟩ := by
  unfold handleCatch
  simp only [he, if_true]
  rw [sendNotification_no_raise cfg nb notifK _ hnb]
  rfl

/-- The event trace of an attempt loop whose attempts `a+1 .. a+j` fail
with the non-timeout errors `errs` and whose attempt `a+j+1` fails with
the `TimeoutError` `e`. -/
def tmoTrace (cfg : Cfg) (nb : Nat → NCall) (errs : Nat → Thrown)
    (e : Thrown) (entry : RunHistory) : (j a k clk : Nat) → List (Ev T)
  | 0, a, k, clk =>
      .taskExec (a + 1) :: .hookTimeout e :: .hookError e ::
        (sendNotification cfg nb k (tmoPayload T cfg clk entry e (a + 1))).1
  | j + 1, a, k, clk =>
      .taskExec (a + 1) ::
        ((if calculateRetryDelay cfg (a + 1) > 0 then
            [.hookRetry (errs (a + 1)) (a + 1),
             .slept (calculateRetryDelay cfg (a + 1))]
          else [.hookRetry (errs (a + 1)) (a + 1)]) ++
          tmoTrace cfg nb errs e entry j (a + 1) k clk)

/-- Characterization of the attempt loop when attempts `attempt+1 ..
attempt+j` fail with non-timeout errors and attempt `attempt+j+1` fails
with the `TimeoutError` `e` (with `j` within the remaining budget): the
loop stops right there — the record is finalized as `timeout` with `e`,
state is reset, the result is `absent` — and the events are exactly
`tmoTrace`. -/
theorem attemptLoop_timeoutAt (cfg : Cfg) (ctx : RunCtx T)
    (errs : Nat → Thrown) (e : Thrown) (he : e.isTimeoutError = true)
    (hnb : ∀ j, (ctx.nb j).isRaise = false) :
    ∀ j r, j ≤ r → ∀ attempt notifK clk s entry le,
    (∀ i, i < j → ctx.att (attempt + 1 + i) = .thrown (errs (attempt + 1 + i))) →
    (∀ i, i < j → (errs (attempt + 1 + i)).isTimeoutError = false) →
    ctx.att (attempt + 1 + j) = .thrown e →
    attemptLoop cfg ctx (r + 1) attempt notifK clk s entry le =
      ⟨.ok none,
       { isRunning := false, status := .scheduled,
         history := setHead s.history (tmoFinal entry clk e) },
       tmoTrace cfg ctx.nb errs e entry j attempt notifK clk,
       clk + 1⟩ := by
  intro j
  induction j with
  | zero =>
      intro r hjr attempt notifK clk s entry le hfail hnt htmo
      have htmo' : ctx.att (attempt + 1) = .thrown e := by simpa using htmo
      conv_lhs => rw [attemptLoop]
      rw [htmo']
      dsimp only
      rw [handleCatch_timeout cfg ctx.nb (attempt + 1) r notifK clk s entry e
        he hnb]
      rfl
  | succ j ih =>
      intro r hjr attempt notifK clk s entry le hfail hnt htmo
      obtain ⟨r', rfl⟩ : ∃ r', r = r' + 1 := ⟨r - 1, by omega⟩
      have hf0 : ctx.att (attempt + 1) = .thrown (errs (attempt + 1)) := by
        simpa using hfail 0 (by omega)
      have hn0 : (errs (attempt + 1)).isTimeoutError = false := by
        simpa using hnt 0 (by omega)
      conv_lhs => rw [attemptLoop]
      rw [hf0]
      dsimp only
      rw [handleCatch_retry cfg ctx.nb (attempt + 1) (r' + 1) notifK clk s
        entry (errs (attempt + 1)) hn0 (Nat.succ_pos r')]
      dsimp only
      rw [ih r' (by omega) (attempt + 1) notifK clk s entry
        (some (errs (attempt + 1)))
        (fun i hi => by
          have hidx : attempt + 1 + (i + 1) = attempt + 1 + 1 + i := by omega
          exact hidx ▸ hfail (i + 1) (by omega))
        (fun i hi => by
          have hidx : attempt + 1 + (i + 1) = attempt + 1 + 1 + i := by omega
          exact hidx ▸ hnt (i + 1) (by omega))
        (by
          have hidx : attempt + 1 + (j + 1) = attempt + 1 + 1 + j := by omega
          exact hidx ▸ htmo)]
      rfl

theorem tmoTrace_exec (cfg : Cfg) (nb : Nat → NCall) (errs : Nat → Thrown)
    (e : Thrown) (entry : RunHistory) :
    ∀ j a k clk,
    (tmoTrace (T := T) cfg nb errs e entry j a k clk).filterMap execAttempt =
      attemptNums (a + 1) (j + 1) := by
  intro j
  induction j with
  | zero =>
      intro a k clk
      simp [tmoTrace, execAttempt, attemptNums,
        sendNotification_filterMap_eq_nil cfg nb k
          (tmoPayload T cfg clk entry e (a + 1)) execAttempt
          (fun q => rfl) (fun x => rfl)]
  | succ j ih =>
      intro a k clk
      by_cases hd : calculateRetryDelay cfg (a + 1) > 0 <;>
        simp [tmoTrace, execAttempt, attemptNums, hd, ih]

theorem tmoTrace_retry (cfg : Cfg) (nb : Nat → NCall) (errs : Nat → Thrown)
    (e : Thrown) (entry : RunHistory) :
    ∀ j a k clk,
    (tmoTrace (T := T) cfg nb errs e entry j a k clk).filterMap retryPair =
      retrySeq errs (a + 1) j := by
  intro j
  induction j with
  | zero =>
      intro a k clk
      simp [tmoTrace, retryPair, retrySeq,
        sendNotification_filterMap_eq_nil cfg nb k
          (tmoPayload T cfg clk entry e (a + 1)) retryPair
          (fun q => rfl) (fun x => rfl)]
  | succ j ih =>
      intro a k clk
      by_cases hd : calculateRetryDelay cfg (a + 1) > 0 <;>
        simp [tmoTrace, retryPair, retrySeq, hd, ih]

theorem tmoTrace_timeoutHook (cfg : Cfg) (nb : Nat → NCall)
    (errs : Nat → Thrown) (e : Thrown) (entry : RunHistory) :
    ∀ j a k clk,
    (tmoTrace (T := T) cfg nb errs e entry j a k clk).filterMap
      timeoutHookArg = [e] := by
  intro j
  induction j with
  | zero =>
      intro a k clk
      simp [tmoTrace, timeoutHookArg,
        sendNotification_filterMap_eq_nil cfg nb k
          (tmoPayload T cfg clk entry e (a + 1)) timeoutHookArg
          (fun q => rfl) (fun x => rfl)]
  | succ j ih =>
      intro a k clk
      by_cases hd : calculateRetryDelay cfg (a + 1) > 0 <;>
        simp [tmoTrace, timeoutHookArg, hd, ih]

theorem tmoTrace_errorHook (cfg : Cfg) (nb : Nat → NCall)
    (errs : Nat → Thrown) (e : Thrown) (entry : RunHistory) :
    ∀ j a k clk,
    (tmoTrace (T := T) cfg nb errs e entry j a k clk).filterMap
      errorHookArg = [e] := by
  intro j
  induction j with
  | zero =>
      intro a k clk
      simp [tmoTrace, errorHookArg,
        sendNotification_filterMap_eq_nil cfg nb k
          (tmoPayload T cfg clk entry e (a + 1)) errorHookArg
          (fun q => rfl) (fun x => rfl)]
  | succ j ih =>
      intro a k clk
      by_cases hd : calculateRetryDelay cfg (a + 1) > 0 <;>
        simp [tmoTrace, errorHookArg, hd, ih]

theorem tmoTrace_notified (cfg : Cfg) (nb : Nat → NCall)
    (errs : Nat → Thrown) (e : Thrown) (entry : RunHistory) :
    ∀ j a k clk,
    (tmoTrace (T := T) cfg nb errs e entry j a k clk).filterMap
      notifiedPayload =
      (if cfg.notifierPresent && cfg.shouldNotify.get NotifEvent.timeout then
        [tmoPayload T cfg clk entry e (a + j + 1)]
      else []) := by
  intro j
  induction j with
  | zero =>
      intro a k clk
      simp only [tmoTrace, List.filterMap_cons, notifiedPayload]
      rw [sendNotification_filterMap_notified]
      rfl
  | succ j ih =>
      intro a k clk
      have hidx : a + 1 + j + 1 = a + (j + 1) + 1 := by omega
      by_cases hd : calculateRetryDelay cfg (a + 1) > 0 <;>
        simp [tmoTrace, notifiedPayload, hd, ih, hidx]

/-- Shared protected-task-level characterization behind C3 and C10: if
the first `j` attempts fail with non-timeout errors and attempt `j + 1`
(within the budget) fails with a `TimeoutError`, the non-skipped
invocation ends right there with a `timeout` record, both hooks, the
filtered notification, reset state and an `absent` result; the complete
trace is the start hook followed by `tmoTrace`. -/
theorem protectedTask_timeoutAt (cfg : Cfg) (ctx : RunCtx T)
    (errs : Nat → Thrown) (e : Thrown) (j : Nat) (trig : Trigger)
    (s : TaskState) (clk : Nat)
    (he : e.isTimeoutError = true)
    (hnb : ∀ i, (ctx.nb i).isRaise = false)
    (hfail : ∀ i, i < j → ctx.att (1 + i) = .thrown (errs (1 + i)))
    (hnt : ∀ i, i < j → (errs (1 + i)).isTimeoutError = false)
    (htmo : ctx.att (1 + j) = .thrown e)
    (hj : j ≤ cfg.retries)
    (hns : cfg.preventOverlap = false ∨ s.isRunning = false)
    (hlim : 1 ≤ cfg.historyLimit) :
    (protectedTask cfg ctx trig s clk).result = .ok none ∧
    (protectedTask cfg ctx trig s clk).state.isRunning = false ∧
    (protectedTask cfg ctx trig s clk).state.status = .scheduled ∧
    (protectedTask cfg ctx trig s clk).state.history.head? =
      some (tmoFinal (startEntry clk trig) (clk + 1) e) ∧
    (protectedTask cfg ctx trig s clk).trace.filterMap execAttempt =
      attemptNums 1 (j + 1) ∧
    (protectedTask cfg ctx trig s clk).trace.filterMap timeoutHookArg = [e] ∧
    (protectedTask cfg ctx trig s clk).trace.filterMap errorHookArg = [e] ∧
    (protectedTask cfg ctx trig s clk).trace.filterMap retryPair =
      retrySeq errs 1 j ∧
    (protectedTask cfg ctx trig s clk).trace.filterMap notifiedPayload =
      (if cfg.notifierPresent && cfg.shouldNotify.get NotifEvent.timeout then
        [tmoPayload T cfg (clk + 1) (startEntry clk trig) e (j + 1)]
      else []) ∧
    (protectedTask cfg ctx trig s clk).trace =
      .hookStart :: tmoTrace cfg ctx.nb errs e (startEntry clk trig) j 0 0
        (clk + 1) := by
  have hcond : (cfg.preventOverlap && s.isRunning) = false := by
    rcases hns with h | h <;> simp [h]
  have hmain : protectedTask cfg ctx trig s clk =
      ⟨.ok none,
       { isRunning := false, status := .scheduled,
         history := setHead
           ((startEntry clk trig :: s.history).take cfg.historyLimit)
           (tmoFinal (startEntry clk trig) (clk + 1) e) },
       .hookStart :: tmoTrace cfg ctx.nb errs e (startEntry clk trig) j 0 0
         (clk + 1),
       clk + 1 + 1⟩ := by
    unfold protectedTask
    rw [hcond]
    simp only [Bool.false_eq_true, if_false]
    rw [attemptLoop_timeoutAt cfg ctx errs e he hnb j cfg.retries hj 0 0
      (clk + 1) _ _ none
      (fun i hi => by simpa using hfail i hi)
      (fun i hi => by simpa using hnt i hi)
      (by simpa using htmo)]
    rfl
  rw [hmain]
  obtain ⟨m, hm⟩ : ∃ m, cfg.historyLimit = m + 1 :=
    ⟨cfg.historyLimit - 1, by omega⟩
  refine ⟨rfl, rfl, rfl, ?_, ?_, ?_, ?_, ?_, ?_, rfl⟩
  · simp [hm, List.take_succ_cons, setHead_cons]
  · simp [List.filterMap_cons, execAttempt, tmoTrace_exec]
  · simp [List.filterMap_cons, timeoutHookArg, tmoTrace_timeoutHook]
  · simp [List.filterMap_cons, errorHookArg, tmoTrace_errorHook]
  · simp [List.filterMap_cons, retryPair, tmoTrace_retry]
  · simp only [List.filterMap_cons, notifiedPayload]
    rw [tmoTrace_notified]
    simp

/-- C3 counterexample input: `executionTimeout = 1000`, retries 3, a
first attempt failing with a generic error, the second with the timeout
error, and a notifier whose calls throw synchronously. -/
def ctxC3x : RunCtx Nat :=
  { att := fun k => if k = 1 then .thrown (.error 5)
                    else .thrown (.timeoutError 9),
    nb := fun _ => .raise (.error 77) }

/-- C3 configuration for the counterexample. -/
def cfgC3x : Cfg :=
  mkCfg { retries := some 3, executionTimeout := some 1000, notifierPresent := true }

/-- C3 as stated is false on two counts at this input: (a) the retry
hook *did* fire during an invocation in which an attempt failed with the
timeout error (it fired for the earlier generic failure of attempt 1),
contradicting "the retry hook never fires for that invocation"; and (b)
with a synchronously-throwing notifier the timeout dispatch (inside the
`catch` clause) escapes, so the result is a rejection rather than
`absent` and `isRunning` is never reset. -/
theorem C3_counterexample :
    (protectedTask cfgC3x ctxC3x .manual createTaskState 0).trace.filterMap
      retryPair = [(.error 5, 1)] ∧
    (protectedTask cfgC3x ctxC3x .manual createTaskState 0).result =
      .error (.error 77) ∧
    (protectedTask cfgC3x ctxC3x .manual createTaskState 0).state.isRunning =
      true :=
  ⟨rfl, rfl, rfl⟩

/-- C3 (amended: provided the notifier never throws synchronously, and
with "the retry hook never fires" weakened to "the timeout attempt never
triggers the retry hook — retry hooks fire exactly once per earlier
non-timeout failure and never after the timeout"): with
`executionTimeout` set and positive, if attempts `1..j` fail with
non-timeout errors and attempt `j + 1` (within the budget) fails with
the timeout error, the non-skipped invocation terminates immediately:
the history record is finalized with status `timeout` and the timeout
error, the timeout hook then the generic error hook fire exactly once
each, a `timeout` notification is dispatched subject to the `notifyOn`
filter, `isRunning` is reset, the result is `absent`, and no further
attempt is executed (exactly `j + 1` task executions). -/
theorem C3_timeout_terminal (cfg : Cfg) (ctx : RunCtx T)
    (errs : Nat → Thrown) (e : Thrown) (t j : Nat) (trig : Trigger)
    (s : TaskState) (clk : Nat)
    (hset : cfg.executionTimeout = some t) (htpos : 0 < t)
    (he : e.isTimeoutError = true)
    (hnb : ∀ i, (ctx.nb i).isRaise = false)
    (hfail : ∀ i, i < j → ctx.att (1 + i) = .thrown (errs (1 + i)))
    (hnt : ∀ i, i < j → (errs (1 + i)).isTimeoutError = false)
    (htmo : ctx.att (1 + j) = .thrown e)
    (hj : j ≤ cfg.retries)
    (hns : cfg.preventOverlap = false ∨ s.isRunning = false)
    (hlim : 1 ≤ cfg.historyLimit) :
    (protectedTask cfg ctx trig s clk).result = .ok none ∧
    (protectedTask cfg ctx trig s clk).state.isRunning = false ∧
    (protectedTask cfg ctx trig s clk).state.status = .scheduled ∧
    (protectedTask cfg ctx trig s clk).state.history.head? =
      some (tmoFinal (startEntry clk trig) (clk + 1) e) ∧
    (protectedTask cfg ctx trig s clk).trace.filterMap execAttempt =
      attemptNums 1 (j + 1) ∧
    (protectedTask cfg ctx trig s clk).trace.filterMap timeoutHookArg = [e] ∧
    (protectedTask cfg ctx trig s clk).trace.filterMap errorHookArg = [e] ∧
    (protectedTask cfg ctx trig s clk).trace.filterMap retryPair =
      retrySeq errs 1 j ∧
    (protectedTask cfg ctx trig s clk).trace.filterMap notifiedPayload =
      (if cfg.notifierPresent && cfg.shouldNotify.get NotifEvent.timeout then
        [tmoPayload T cfg (clk + 1) (startEntry clk trig) e (j + 1)]
      else []) ∧
    (protectedTask cfg ctx trig s clk).trace =
      .hookStart :: tmoTrace cfg ctx.nb errs e (startEntry clk trig) j 0 0
        (clk + 1) :=
  protectedTask_timeoutAt cfg ctx errs e j trig s clk he hnb hfail hnt htmo
    hj hns hlim

/-- C3 witness inputs: retries 3, `executionTimeout = 1000`, generic
failure on attempt 1 and the timeout error on attempt 2, well-behaved
notifier. -/
def ctxC3w : RunCtx Nat :=
  { att := fun k => if k = 1 then .thrown (.error 1)
                    else .thrown (.timeoutError 9),
    nb := fun _ => .ok }

/-- C3 witness configuration. -/
def cfgC3w : Cfg :=
  mkCfg { retries := some 3, executionTimeout := some 1000, notifierPresent := true }

/-- Witness for C3: at the concrete input the invocation stops on the
attempt-2 timeout with an `absent` result, a `timeout` record, and two
task executions. -/
theorem C3_timeout_terminal_witness :
    cfgC3w.executionTimeout = some 1000 ∧
    (protectedTask cfgC3w ctxC3w .manual createTaskState 0).result =
      .ok none ∧
    (protectedTask cfgC3w ctxC3w .manual createTaskState 0).state.history.head? =
      some (tmoFinal (startEntry 0 .manual) 1 (.timeoutError 9)) ∧
    (protectedTask cfgC3w ctxC3w .manual createTaskState 0).trace.filterMap
      execAttempt = attemptNums 1 2 := by
  have h := C3_timeout_terminal cfgC3w ctxC3w (fun k => Thrown.error k)
    (.timeoutError 9) 1000 1 .manual createTaskState 0 rfl (by decide)
    (by decide) (fun _ => rfl) (by decide) (by decide) (by decide) (by decide)
    (Or.inl rfl) (by decide)
  exact ⟨rfl, h.1, h.2.2.2.1, h.2.2.2.2.1⟩

/-- C10 counterexample input: no `executionTimeout`, a task that itself
throws a `TimeoutError`, and a notifier whose calls throw
synchronously. -/
def ctxC10x : RunCtx Nat :=
  { att := fun _ => .thrown (.timeoutError 9), nb := fun _ => .raise (.error 77) }

/-- C10 as stated is false with a synchronously-throwing notifier: the
timeout dispatch escapes the `catch` clause, so the invocation's promise
rejects instead of settling with `absent` (the record is still finalized
as `timeout` and no retry happens). -/
theorem C10_counterexample :
    (protectedTask (mkCfg { retries := some 5, notifierPresent := true })
      ctxC10x .manual createTaskState 0).result = .error (.error 77) ∧
    (protectedTask (mkCfg { retries := some 5, notifierPresent := true })
      ctxC10x .manual createTaskState 0).trace.filterMap execAttempt = [1] :=
  ⟨rfl, rfl⟩

/-- C10 (amended: provided the notifier never throws synchronously):
even when `executionTimeout` is not configured, an attempt that throws
an instance of the exported `TimeoutError` class (after earlier
non-timeout failures, within the budget) is handled as a timeout
outcome: the record is finalized with status `timeout`, the timeout and
error hooks fire, the result is `absent`, and no retry is attempted
regardless of the remaining retries budget. -/
theorem C10_task_thrown_timeoutError (cfg : Cfg) (ctx : RunCtx T)
    (errs : Nat → Thrown) (e : Thrown) (j : Nat) (trig : Trigger)
    (s : TaskState) (clk : Nat)
    (hnoset : cfg.executionTimeout = none)
    (he : e.isTimeoutError = true)
    (hnb : ∀ i, (ctx.nb i).isRaise = false)
    (hfail : ∀ i, i < j → ctx.att (1 + i) = .thrown (errs (1 + i)))
    (hnt : ∀ i, i < j → (errs (1 + i)).isTimeoutError = false)
    (htmo : ctx.att (1 + j) = .thrown e)
    (hj : j ≤ cfg.retries)
    (hns : cfg.preventOverlap = false ∨ s.isRunning = false)
    (hlim : 1 ≤ cfg.historyLimit) :
    (protectedTask cfg ctx trig s clk).result = .ok none ∧
    (protectedTask cfg ctx trig s clk).state.isRunning = false ∧
    (protectedTask cfg ctx trig s clk).state.status = .scheduled ∧
    (protectedTask cfg ctx trig s clk).state.history.head? =
      some (tmoFinal (startEntry clk trig) (clk + 1) e) ∧
    (protectedTask cfg ctx trig s clk).trace.filterMap execAttempt =
      attemptNums 1 (j + 1) ∧
    (protectedTask cfg ctx trig s clk).trace.filterMap timeoutHookArg = [e] ∧
    (protectedTask cfg ctx trig s clk).trace.filterMap errorHookArg = [e] ∧
    (protectedTask cfg ctx trig s clk).trace.filterMap retryPair =
      retrySeq errs 1 j :=
  have h := protectedTask_timeoutAt cfg ctx errs e j trig s clk he hnb hfail
    hnt htmo hj hns hlim
  ⟨h.1, h.2.1, h.2.2.1, h.2.2.2.1, h.2.2.2.2.1, h.2.2.2.2.2.1,
   h.2.2.2.2.2.2.1, h.2.2.2.2.2.2.2.1⟩

/-- C10 witness input: task throws `TimeoutError` on the first attempt,
no `executionTimeout`, retries 5, well-behaved notifier. -/
def ctxC10w : RunCtx Nat :=
  { att := fun _ => .thrown (.timeoutError 9), nb := fun _ => .ok }

/-- Witness for C10: the task-thrown `TimeoutError` ends the invocation
at once — one execution, `timeout` record, `absent` result. -/
theorem C10_task_thrown_timeoutError_witness :
    (mkCfg { retries := some 5, notifierPresent := true }).executionTimeout =
      none ∧
    (protectedTask (mkCfg { retries := some 5, notifierPresent := true })
      ctxC10w .manual createTaskState 0).result = .ok none ∧
    (protectedTask (mkCfg { retries := some 5, notifierPresent := true })
      ctxC10w .manual createTaskState 0).state.history.head? =
      some (tmoFinal (startEntry 0 .manual) 1 (.timeoutError 9)) ∧
    (protectedTask (mkCfg { retries := some 5, notifierPresent := true })
      ctxC10w .manual createTaskState 0).trace.filterMap execAttempt =
      attemptNums 1 1 := by
  have h := C10_task_thrown_timeoutError
    (mkCfg { retries := some 5, notifierPresent := true }) ctxC10w
    (fun k => Thrown.error k) (.timeoutError 9) 0 .manual createTaskState 0
    rfl (by decide) (fun _ => rfl) (by decide) (by decide) (by decide)
    (by decide) (Or.inl rfl) (by decide)
  exact ⟨rfl, h.1, h.2.2.2.1, h.2.2.2.2.1⟩

/-! ### C8 — bounded history -/

/-- Any single invocation keeps the history within the configured
bound: a skip leaves it untouched, and a non-skipped invocation inserts
one record and immediately trims to the limit; the later in-place
finalization never changes the length. -/
theorem protectedTask_history_bound (cfg : Cfg) (ctx : RunCtx T)
    (trig : Trigger) (s : TaskState) (clk : Nat)
    (hbound : s.history.length ≤ cfg.historyLimit) :
    (protectedTask cfg ctx trig s clk).state.history.length ≤
      cfg.historyLimit := by
  by_cases hc : (cfg.preventOverlap && s.isRunning) = true
  · unfold protectedTask
    rw [if_pos hc]
    dsimp only
    split <;> exact hbound
  · unfold protectedTask
    rw [if_neg hc]
    dsimp only
    obtain ⟨hd, hh⟩ := attemptLoop_history cfg ctx (cfg.retries + 1) 0 0
      (clk + 1) _ _ none
    rw [hh]
    rw [setHead_length]
    simp only [List.length_take]
    exact Nat.min_le_left _ _

/-- Sequential composition of invocations of the same task (the engine
serializes each invocation's shared-state writes; concurrency is
analysed separately in the interleaved model below). -/
def seqRun (cfg : Cfg) : List (RunCtx T × Trigger) → TaskState → Nat →
    TaskState
  | [], s, _ => s
  | (ctx, trig) :: rest, s, clk =>
      seqRun cfg rest (protectedTask cfg ctx trig s clk).state
        (protectedTask cfg ctx trig s clk).clk

/-- C8: (a) the `historyLimit` default is 10; (b) for every starting
state within the bound and every sequence of invocations,
`history.length ≤ historyLimit` holds after every prefix of the
sequence; (c) a non-skipped invocation (under a spec-legal
`historyLimit ≥ 1`) inserts its new record at the front and drops
records from the back: the final history is the new (finalized) record
followed by the old records trimmed to `historyLimit - 1`. -/
theorem C8_history_bounded (cfg : Cfg) :
    (∀ o : Options, o.historyLimit = none → (mkCfg o).historyLimit = 10) ∧
    (∀ invs : List (RunCtx T × Trigger), ∀ s clk,
      s.history.length ≤ cfg.historyLimit →
      (seqRun cfg invs s clk).history.length ≤ cfg.historyLimit) ∧
    (∀ ctx : RunCtx T, ∀ trig s clk,
      (cfg.preventOverlap = false ∨ s.isRunning = false) →
      1 ≤ cfg.historyLimit →
      ∃ hd, (protectedTask cfg ctx trig s clk).state.history =
        hd :: s.history.take (cfg.historyLimit - 1)) := by
  refine ⟨fun o ho => by simp [mkCfg, ho], ?_, ?_⟩
  · intro invs
    induction invs with
    | nil => intro s clk h; exact h
    | cons p rest ih =>
        intro s clk h
        obtain ⟨ctx, trig⟩ := p
        exact ih _ _ (protectedTask_history_bound cfg ctx trig s clk h)
  · intro ctx trig s clk hns hlim
    exact protectedTask_history_nonskip cfg ctx trig s clk hns hlim

/-- Witness for C8: a concrete three-invocation sequence against
`historyLimit = 2` stays within the bound, and a concrete non-skipped
invocation inserts at the front. -/
theorem C8_history_bounded_witness :
    ((0 : Nat) ≤ (mkCfg { historyLimit := some 2 }).historyLimit) ∧
    (seqRun (mkCfg { historyLimit := some 2 })
      [(ctxC6w, .manual), (ctxC6w, .schedule), (ctxC6w, .manual)]
      createTaskState 0).history.length ≤
      (mkCfg { historyLimit := some 2 }).historyLimit ∧
    (∃ hd, (protectedTask (mkCfg { historyLimit := some 2 }) ctxC6w .manual
      createTaskState 0).state.history =
      hd :: createTaskState.history.take
        ((mkCfg { historyLimit := some 2 }).historyLimit - 1)) :=
  ⟨by decide,
   (C8_history_bounded (mkCfg { historyLimit := some 2 })).2.1
     [(ctxC6w, .manual), (ctxC6w, .schedule), (ctxC6w, .manual)]
     createTaskState 0 (by decide),
   (C8_history_bounded (mkCfg { historyLimit := some 2 })).2.2
     ctxC6w .manual createTaskState 0 (Or.inl rfl) (by decide)⟩

/-! ### C9 — `getHistory` returns a copy, but a shallow one

`getHistory` is `return [...state.history]` (index.ts lines 137-140).
In JavaScript `state.history` is an array *object* holding *references*
to run-record objects, and the spread copies only the array: the record
objects are shared between the internal array and the returned one.  To
analyse this aliasing we give a small heap model: `Heap.arrays` maps
array object ids to lists of record ids, `Heap.recs` maps record ids to
record values; `getHistoryRef` is `getHistory` under this semantics —
it allocates a fresh array id with the same record references. -/

structure Heap where
  arrays : List (Nat × List Nat)
  recs : List (Nat × RunHistory)
  nextArr : Nat
deriving Repr

/-- Contents (record references) of the array object `aid`. -/
def Heap.getArr (h : Heap) (aid : Nat) : List Nat :=
  (List.lookup aid h.arrays).getD []

/-- Dereference one record object. -/
def Heap.getRec (h : Heap) (rid : Nat) : Option RunHistory :=
  List.lookup rid h.recs

/-- In-place mutation of the array object `aid` (e.g. `push`/`splice`
on the caller's side), replacing its contents with `v`. -/
def Heap.setArr (h : Heap) (aid : Nat) (v : List Nat) : Heap :=
  { h with arrays := h.arrays.map (fun p => if p.1 = aid then (p.1, v) else p) }

/-- In-place mutation of the record object `rid` (e.g.
`history[0].status = ...` on the caller's side). -/
def Heap.setRec (h : Heap) (rid : Nat) (r : RunHistory) : Heap :=
  { h with recs := h.recs.map (fun p => if p.1 = rid then (p.1, r) else p) }

/-- Function `getHistory` under reference semantics: allocate a fresh array with
the same record references as the internal history array `histArr`;
returns the new heap and the id of the returned array. -/
def getHistoryRef (h : Heap) (histArr : Nat) : Heap × Nat :=
  ({ h with
      arrays := (h.nextArr, h.getArr histArr) :: h.arrays
      nextArr := h.nextArr + 1 },
   h.nextArr)

/-- The sequence of record values the internal history denotes. -/
def viewHistory (h : Heap) (histArr : Nat) : List (Option RunHistory) :=
  (h.getArr histArr).map h.getRec

theorem lookup_map_set {β : Type} (l : List (Nat × β)) (a b : Nat) (v : β)
    (hab : a ≠ b) :
    List.lookup a (l.map (fun p => if p.1 = b then (p.1, v) else p)) =
      List.lookup a l := by
  induction l with
  | nil => rfl
  | cons p t ih =>
      obtain ⟨k, w⟩ := p
      simp only [List.map_cons]
      by_cases hp : k = b
      · rw [if_pos hp]
        subst hp
        have hak : (a == k) = false := by
          rw [beq_eq_false_iff_ne]
          exact hab
        simp [List.lookup, hak, ih]
      · rw [if_neg hp]
        by_cases hak : a = k
        · subst hak
          simp [List.lookup]
        · have hak' : (a == k) = false := by
            rw [beq_eq_false_iff_ne]
            exact hak
          simp [List.lookup, hak', ih]

/-- A success record and a mutated (failed) version of it, for the C9
counterexample. -/
def recA : RunHistory :=
  { startedAt := 0, endedAt := some 1, duration := some 1,
    status := .success, triggeredBy := .manual }

/-- The same record object after the caller mutates its status. -/
def recB : RunHistory := { recA with status := .failed }

/-- A heap whose internal history array (id 0) holds one record
reference (id 5). -/
def heapC9 : Heap :=
  { arrays := [(0, [5])], recs := [(5, recA)], nextArr := 1 }

/-- C9 as stated is false: the copy is shallow.  After `getHistory`
returns, mutating a *record* reachable from the returned sequence
(record id 5, shared by reference) changes the internal history state:
the internal view of history array 0 flips from the success record to
the mutated failed record, so subsequent `history()` calls observe the
mutation. -/
theorem C9_counterexample :
    viewHistory (Heap.setRec (getHistoryRef heapC9 0).1 5 recB) 0 =
      [some recB] ∧
    viewHistory heapC9 0 = [some recA] ∧
    recB ≠ recA := by
  refine ⟨rfl, rfl, by decide⟩

/-- C9 (amended: the returned sequence itself is a fresh array, so
mutating the *sequence* — replacing its contents arbitrarily — never
affects the internal history state or subsequent `history()` calls; the
*records* in it, however, are shared by reference, and mutating one does
affect the internal state, as the counterexample shows): for any heap
and any internal array id below the allocation counter, after
`getHistoryRef` the caller may overwrite the returned array's contents
arbitrarily and the internal array's contents and denoted record
sequence are unchanged. -/
theorem C9_copy_shallow (h : Heap) (aid : Nat) (haid : aid < h.nextArr) :
    (∀ l, Heap.getArr
        (Heap.setArr (getHistoryRef h aid).1 (getHistoryRef h aid).2 l) aid =
      Heap.getArr h aid) ∧
    (∀ l, viewHistory
        (Heap.setArr (getHistoryRef h aid).1 (getHistoryRef h aid).2 l) aid =
      viewHistory h aid) := by
  have hne : aid ≠ h.nextArr := by omega
  have hsetArr : ∀ (hp : Heap) (x y : Nat) (v : List Nat), x ≠ y →
      Heap.getArr (Heap.setArr hp y v) x = Heap.getArr hp x := by
    intro hp x y v hxy
    unfold Heap.setArr Heap.getArr
    dsimp only
    rw [lookup_map_set hp.arrays x y v hxy]
  have halloc : ∀ x, x ≠ h.nextArr →
      Heap.getArr (getHistoryRef h aid).1 x = Heap.getArr h x := by
    intro x hx
    unfold getHistoryRef Heap.getArr
    dsimp only
    have hba : (x == h.nextArr) = false := by
      rw [beq_eq_false_iff_ne]
      exact hx
    simp [List.lookup, hba]
  have harr : ∀ l, Heap.getArr
      (Heap.setArr (getHistoryRef h aid).1 (getHistoryRef h aid).2 l) aid =
      Heap.getArr h aid := by
    intro l
    rw [hsetArr _ aid (getHistoryRef h aid).2 l hne]
    exact halloc aid hne
  refine ⟨harr, fun l => ?_⟩
  unfold viewHistory
  rw [harr l]
  have hrecs : (Heap.setArr (getHistoryRef h aid).1 (getHistoryRef h aid).2
      l).recs = h.recs := rfl
  unfold Heap.getRec
  rw [hrecs]

/-- Witness for C9 at the concrete heap: overwriting the returned
array's contents (even emptying it) leaves the internal history array
and its denoted records untouched. -/
theorem C9_copy_shallow_witness :
    0 < heapC9.nextArr ∧
    Heap.getArr
      (Heap.setArr (getHistoryRef heapC9 0).1 (getHistoryRef heapC9 0).2 [])
      0 = Heap.getArr heapC9 0 ∧
    viewHistory
      (Heap.setArr (getHistoryRef heapC9 0).1 (getHistoryRef heapC9 0).2 [])
      0 = viewHistory heapC9 0 :=
  ⟨by decide,
   (C9_copy_shallow heapC9 0 (by decide)).1 [],
   (C9_copy_shallow heapC9 0 (by decide)).2 []⟩

/-! ### C4 — concurrent invocations: the running-record invariant

Interleaved small-step model of `protectedTask`.  Each invocation is a
thread; the JavaScript event loop runs the code between two `await`s
atomically, so a thread step executes one such block.  Suspension points
are the attempt's `await task()` / timeout race (pc `waitTask`) and the
retry wait (pc `sleeping`).  A thread whose invocation promise settles is
`done`; one whose promise rejects (synchronous notifier throw) is
`dead`.  History records are tagged with an allocation id so that the
source's in-place finalization of `historyEntry` can be expressed: a
finalization updates the record with the thread's id wherever it still
is in the (possibly trimmed) history. -/

/-- Program counter of one invocation thread. -/
inductive PC (T : Type) where
  | entry
  | waitTask
  | sleeping
  | done (res : Option T)
  | dead (e : Thrown)
deriving DecidableEq

/-- One invocation thread: its behaviour scripts, trigger source, and
resumption state (`attempt`, `notifK`, its record's id and `startedAt`). -/
structure Thread (T : Type) where
  att : Nat → TaskOutcome T
  nb : Nat → NCall
  triggeredBy : Trigger
  pc : PC T
  attempt : Nat
  notifK : Nat
  recId : Nat
  startedAt : Nat

/-- The shared per-task mutable state (`TaskState` plus the record-id
allocator and the logical clock). -/
structure Shared where
  isRunning : Bool
  status : SchedStatus
  history : List (Nat × RunHistory)
  nextId : Nat
  clk : Nat
deriving Repr

/-- In-place mutation of the record object with id `id` as visible in
the history array. -/
def finalizeAt (hst : List (Nat × RunHistory)) (id : Nat)
    (f : RunHistory → RunHistory) : List (Nat × RunHistory) :=
  hst.map (fun p => if p.1 = id then (p.1, f p.2) else p)

/-- The catch block (scheduler.ts lines 207-244) as one atomic step of
thread `t` handling error `e` on attempt `a`: timeout finalization (with
reset unless the notifier throws synchronously), or retry (suspending on
the backoff sleep when the delay is positive, else resuming the next
attempt's await directly), or the exhaustion block. -/
def stepCatch (cfg : Cfg) (sh : Shared) (t : Thread T) (a : Nat)
    (e : Thrown) : Shared × Thread T :=
  if e.isTimeoutError then
    let endedAt := sh.clk
    let hist := finalizeAt sh.history t.recId (fun r =>
      { r with
          endedAt := some endedAt
          duration := some (endedAt - r.startedAt)
          status := .timeout
          error := some e })
    let n := sendNotification (T := T) cfg t.nb t.notifK
      { taskName := cfg.name, event := .timeout, timestamp := endedAt,
        duration := some (endedAt - t.startedAt), error := some e,
        attemptsMade := some a }
    match n.2.2 with
    | some e2 =>
        ({ sh with history := hist, clk := sh.clk + 1 },
         { t with pc := .dead e2, notifK := n.2.1 })
    | none =>
        ({ sh with
            history := hist
            clk := sh.clk + 1
            isRunning := false
            status := .scheduled },
         { t with pc := .done none, notifK := n.2.1 })
  else if a < cfg.retries + 1 then
    if calculateRetryDelay cfg a > 0 then
      (sh, { t with pc := .sleeping })
    else
      (sh, { t with pc := .waitTask, attempt := a + 1 })
  else
    let endedAt := sh.clk
    let coerced := e.coerceToError
    let hist := finalizeAt sh.history t.recId (fun r =>
      { r with
          endedAt := some endedAt
          duration := some (endedAt - r.startedAt)
          status := .failed
          error := some coerced })
    let n := sendNotification (T := T) cfg t.nb t.notifK
      { taskName := cfg.name, event := .error, timestamp := endedAt,
        duration := some (endedAt - t.startedAt), error := some coerced,
        attemptsMade := some a }
    match n.2.2 with
    | some e2 =>
        ({ sh with history := hist, clk := sh.clk + 1 },
         { t with pc := .dead e2, notifK := n.2.1 })
    | none =>
        ({ sh with
            history := hist
            clk := sh.clk + 1
            isRunning := false
            status := .scheduled },
         { t with pc := .done none, notifK := n.2.1 })

/-- One atomic step of thread `t` against shared state `sh`:
* `entry` — the overlap check followed either by the skip path or by the
  mark-running / record-creation / trim / start-hook block ending at the
  first attempt's await;
* `waitTask` — the await settles: the success block (whose synchronous
  notifier throw falls into the same catch), or the catch block;
* `sleeping` — the backoff sleep resolves and the next attempt's await
  begins;
* `done`/`dead` — settled invocations take no further steps. -/
def stepThread (cfg : Cfg) (sh : Shared) (t : Thread T) :
    Shared × Thread T :=
  match t.pc with
  | .entry =>
      if cfg.preventOverlap && sh.isRunning then
        let n := sendNotification (T := T) cfg t.nb t.notifK
          { taskName := cfg.name, event := .overlapSkip, timestamp := sh.clk }
        match n.2.2 with
        | some e =>
            ({ sh with clk := sh.clk + 1 },
             { t with pc := .dead e, notifK := n.2.1 })
        | none =>
            ({ sh with clk := sh.clk + 1 },
             { t with pc := .done none, notifK := n.2.1 })
      else
        ({ sh with
            isRunning := true
            status := .running
            history := ((sh.nextId,
              { startedAt := sh.clk, status := .running,
                triggeredBy := t.triggeredBy }) :: sh.history).take
                cfg.historyLimit
            nextId := sh.nextId + 1
            clk := sh.clk + 1 },
         { t with
            pc := .waitTask
            attempt := 1
            recId := sh.nextId
            startedAt := sh.clk })
  | .waitTask =>
      match t.att t.attempt with
      | .ok v =>
          let endedAt := sh.clk
          let hist := finalizeAt sh.history t.recId (fun r =>
            { r with
                endedAt := some endedAt
                duration := some (endedAt - r.startedAt)
                status := .success })
          let n := sendNotification (T := T) cfg t.nb t.notifK
            { taskName := cfg.name, event := .success, timestamp := endedAt,
              duration := some (endedAt - t.startedAt), result := some v,
              attemptsMade := some t.attempt }
          match n.2.2 with
          | none =>
              ({ sh with
                  history := hist
                  clk := sh.clk + 1
                  isRunning := false
                  status := .scheduled },
               { t with pc := .done (some v), notifK := n.2.1 })
          | some e2 =>
              stepCatch cfg { sh with history := hist, clk := sh.clk + 1 }
                { t with notifK := n.2.1 } t.attempt e2
      | .thrown e => stepCatch cfg sh t t.attempt e
  | .sleeping => (sh, { t with pc := .waitTask, attempt := t.attempt + 1 })
  | .done _ => (sh, t)
  | .dead _ => (sh, t)

/-- The interleaved system: shared task state plus any number of
invocation threads. -/
structure Sys (T : Type) where
  shared : Shared
  threads : List (Thread T)

/-- Scheduler step: run one atomic block of thread `i` (no-op for an
out-of-range index). -/
def stepI (cfg : Cfg) (sys : Sys T) (i : Nat) : Sys T :=
  match sys.threads[i]? with
  | none => sys
  | some t =>
      { shared := (stepThread cfg sys.shared t).1,
        threads := sys.threads.set i (stepThread cfg sys.shared t).2 }

/-- A fresh invocation thread for the given scripts and trigger. -/
def mkThread (att : Nat → TaskOutcome T) (nb : Nat → NCall)
    (trig : Trigger) : Thread T :=
  { att := att, nb := nb, triggeredBy := trig, pc := .entry, attempt := 0,
    notifK := 0, recId := 0, startedAt := 0 }

/-- Initial system: `createTaskState` and the given invocations, all
about to enter `protectedTask`. -/
def mkSys (scripts : List ((Nat → TaskOutcome T) × (Nat → NCall) × Trigger)) :
    Sys T :=
  { shared :=
      { isRunning := false, status := .scheduled, history := [],
        nextId := 0, clk := 0 },
    threads := scripts.map (fun s => mkThread s.1 s.2.1 s.2.2) }

/-- Reachable system states: any initial system, closed under scheduler
steps (a thread at `entry` is inert until stepped, so invocations
arriving at arbitrary later instants are covered). -/
inductive Reach (cfg : Cfg) : Sys T → Prop where
  | init (scripts : List ((Nat → TaskOutcome T) × (Nat → NCall) × Trigger)) :
      Reach cfg (mkSys scripts)
  | step (sys : Sys T) (i : Nat) : Reach cfg sys → Reach cfg (stepI cfg sys i)

/-- Number of history records with status `running`. -/
def runningCount (hst : List (Nat × RunHistory)) : Nat :=
  hst.countP (fun p => decide (p.2.status = RunStatus.running))

/-- A thread is active while its invocation is between the mark-running
transition and its terminal block. -/
def isActive (t : Thread T) : Bool :=
  match t.pc with
  | .waitTask => true
  | .sleeping => true
  | _ => false

theorem finalizeAt_map_fst (hst : List (Nat × RunHistory)) (id : Nat)
    (f : RunHistory → RunHistory) :
    (finalizeAt hst id f).map Prod.fst = hst.map Prod.fst := by
  unfold finalizeAt
  induction hst with
  | nil => rfl
  | cons q tl ih =>
      by_cases hq : q.1 = id <;> simp [hq, ih]

theorem mem_finalizeAt (hst : List (Nat × RunHistory)) (id : Nat)
    (f : RunHistory → RunHistory) (q : Nat × RunHistory)
    (hq : q ∈ finalizeAt hst id f) :
    ∃ p ∈ hst, q = if p.1 = id then (p.1, f p.2) else p := by
  unfold finalizeAt at hq
  rcases List.mem_map.mp hq with ⟨p, hp, he⟩
  exact ⟨p, hp, he.symm⟩

/-- With pairwise-distinct record ids and every running record carrying
the id `c`, at most one record is running. -/
theorem runningCount_le_one (hst : List (Nat × RunHistory)) (c : Nat)
    (hnd : (hst.map Prod.fst).Nodup)
    (hall : ∀ p ∈ hst, p.2.status = RunStatus.running → p.1 = c) :
    runningCount hst ≤ 1 := by
  induction hst with
  | nil => simp [runningCount]
  | cons q tl ih =>
      simp only [List.map_cons, List.nodup_cons] at hnd
      obtain ⟨hq1, hnd'⟩ := hnd
      by_cases hq : q.2.status = RunStatus.running
      · have hqc : q.1 = c := hall q (List.mem_cons_self q tl) hq
        have htl : tl.countP (fun p => decide (p.2.status = RunStatus.running)) = 0 := by
          refine List.countP_eq_zero.mpr ?_
          intro p hp hrun
          simp only [decide_eq_true_eq] at hrun
          have hpc : p.1 = c := hall p (List.mem_cons_of_mem q hp) hrun
          exact hq1 (by
            rw [hqc, ← hpc]
            exact List.mem_map_of_mem Prod.fst hp)
        simp [runningCount, List.countP_cons, hq, htl]
      · have hrest := ih hnd'
          (fun p hp h => hall p (List.mem_cons_of_mem q hp) h)
        simp only [runningCount, List.countP_cons, hq] at *
        simpa using hrest

/-- Invariant of the interleaved model under `preventOverlap`: record
ids are distinct and below the allocator; and either no thread is active
and no record is running, or exactly one thread is active, `isRunning`
is set, and every running record carries that thread's record id. -/
def InvProp (sys : Sys T) : Prop :=
  (sys.shared.history.map Prod.fst).Nodup ∧
  (∀ p ∈ sys.shared.history, p.1 < sys.shared.nextId) ∧
  ((∀ (j : Nat) (t : Thread T), sys.threads[j]? = some t →
      isActive t = false) ∧
     (∀ p ∈ sys.shared.history, p.2.status ≠ RunStatus.running) ∨
   (∃ (i : Nat) (t₀ : Thread T), sys.threads[i]? = some t₀ ∧
     isActive t₀ = true ∧
     sys.shared.isRunning = true ∧
     (∀ (j : Nat) (t : Thread T), j ≠ i → sys.threads[j]? = some t →
       isActive t = false) ∧
     (∀ p ∈ sys.shared.history, p.2.status = RunStatus.running →
       p.1 = t₀.recId)))

theorem invProp_runningCount (sys : Sys T) (hinv : InvProp sys) :
    runningCount sys.shared.history ≤ 1 := by
  obtain ⟨hnd, _, hcase | hcase⟩ := hinv
  · have : runningCount sys.shared.history = 0 := by
      refine List.countP_eq_zero.mpr ?_
      intro p hp
      simpa using hcase.2 p hp
    omega
  · obtain ⟨i, t₀, _, _, _, _, hrec⟩ := hcase
    exact runningCount_le_one sys.shared.history t₀.recId hnd hrec

theorem finalizeAt_finalizeAt (hst : List (Nat × RunHistory)) (id : Nat)
    (f g : RunHistory → RunHistory) :
    finalizeAt (finalizeAt hst id g) id f =
      finalizeAt hst id (fun r => f (g r)) := by
  unfold finalizeAt
  induction hst with
  | nil => rfl
  | cons q tl ih =>
      by_cases hq : q.1 = id <;> simp [hq, ih]

/-- Outcome classes of the catch block: either it retries — shared state
untouched, thread still active with the same record id — or it is
terminal: the thread's record is finalized with a non-running status,
the allocator is untouched, and the thread settles. -/
theorem stepCatch_spec (cfg : Cfg) (sh : Shared) (t : Thread T) (a : Nat)
    (e : Thrown) :
    ((stepCatch cfg sh t a e).1 = sh ∧
     isActive (stepCatch cfg sh t a e).2 = true ∧
     (stepCatch cfg sh t a e).2.recId = t.recId) ∨
    (∃ f : RunHistory → RunHistory,
      (∀ r, (f r).status ≠ RunStatus.running) ∧
      (stepCatch cfg sh t a e).1.history = finalizeAt sh.history t.recId f ∧
      (stepCatch cfg sh t a e).1.nextId = sh.nextId ∧
      isActive (stepCatch cfg sh t a e).2 = false) := by
  unfold stepCatch
  cases ht : e.isTimeoutError with
  | true =>
      simp only [if_true]
      try dsimp only
      split
      · refine Or.inr ⟨fun r =>
          { r with
              endedAt := some sh.clk
              duration := some (sh.clk - r.startedAt)
              status := RunStatus.timeout
              error := some e },
          fun r => by simp, rfl, rfl, rfl⟩
      · refine Or.inr ⟨fun r =>
          { r with
              endedAt := some sh.clk
              duration := some (sh.clk - r.startedAt)
              status := RunStatus.timeout
              error := some e },
          fun r => by simp, rfl, rfl, rfl⟩
  | false =>
      simp only [Bool.false_eq_true, if_false]
      by_cases ha : a < cfg.retries + 1
      · rw [if_pos ha]
        by_cases hd : calculateRetryDelay cfg a > 0
        · rw [if_pos hd]
          exact Or.inl ⟨rfl, rfl, rfl⟩
        · rw [if_neg hd]
          exact Or.inl ⟨rfl, rfl, rfl⟩
      · rw [if_neg ha]
        try dsimp only
        split
        · refine Or.inr ⟨fun r =>
            { r with
                endedAt := some sh.clk
                duration := some (sh.clk - r.startedAt)
                status := RunStatus.failed
                error := some e.coerceToError },
            fun r => by simp, rfl, rfl, rfl⟩
        · refine Or.inr ⟨fun r =>
            { r with
                endedAt := some sh.clk
                duration := some (sh.clk - r.startedAt)
                status := RunStatus.failed
                error := some e.coerceToError },
            fun r => by simp, rfl, rfl, rfl⟩

/-- Outcome classes of one thread step under `preventOverlap`: the step
is (A) inert (settled threads, and the overlap-skip path, which touches
only the clock and the thread's settling), (B) the mark-running /
record-creation block of a thread entering while `isRunning = false`,
(C1) a step of the unique active thread that keeps it active — shared
`isRunning` and allocator untouched, the history either untouched or
the thread's own record finalized with a non-running status — or (C2) a
terminal step of the active thread finalizing its record with a
non-running status. -/
theorem stepThread_spec (cfg : Cfg) (hprev : cfg.preventOverlap = true)
    (sh : Shared) (t : Thread T) :
    ((stepThread cfg sh t).1.history = sh.history ∧
     (stepThread cfg sh t).1.nextId = sh.nextId ∧
     (stepThread cfg sh t).1.isRunning = sh.isRunning ∧
     isActive (stepThread cfg sh t).2 = isActive t ∧
     (stepThread cfg sh t).2.recId = t.recId) ∨
    (t.pc = PC.entry ∧ sh.isRunning = false ∧
     (stepThread cfg sh t).1.isRunning = true ∧
     (stepThread cfg sh t).1.nextId = sh.nextId + 1 ∧
     (stepThread cfg sh t).1.history =
       ((sh.nextId, startEntry sh.clk t.triggeredBy) :: sh.history).take
         cfg.historyLimit ∧
     isActive (stepThread cfg sh t).2 = true ∧
     (stepThread cfg sh t).2.recId = sh.nextId) ∨
    (isActive t = true ∧
     (stepThread cfg sh t).1.nextId = sh.nextId ∧
     (stepThread cfg sh t).1.isRunning = sh.isRunning ∧
     isActive (stepThread cfg sh t).2 = true ∧
     (stepThread cfg sh t).2.recId = t.recId ∧
     ((stepThread cfg sh t).1.history = sh.history ∨
      ∃ f : RunHistory → RunHistory,
        (∀ r, (f r).status ≠ RunStatus.running) ∧
        (stepThread cfg sh t).1.history = finalizeAt sh.history t.recId f)) ∨
    (isActive t = true ∧
     (stepThread cfg sh t).1.nextId = sh.nextId ∧
     isActive (stepThread cfg sh t).2 = false ∧
     ∃ f : RunHistory → RunHistory,
       (∀ r, (f r).status ≠ RunStatus.running) ∧
       (stepThread cfg sh t).1.history = finalizeAt sh.history t.recId f) := by
  obtain ⟨att, nb, trig, pc, attempt, notifK, recId, startedAt⟩ := t
  cases pc with
  | done res => exact Or.inl ⟨rfl, rfl, rfl, rfl, rfl⟩
  | dead e => exact Or.inl ⟨rfl, rfl, rfl, rfl, rfl⟩
  | sleeping =>
      exact Or.inr (Or.inr (Or.inl ⟨rfl, rfl, rfl, rfl, rfl, Or.inl rfl⟩))
  | entry =>
      unfold stepThread
      try dsimp only
      cases hc : (cfg.preventOverlap && sh.isRunning) with
      | true =>
          rw [if_pos rfl]
          split
          · exact Or.inl ⟨rfl, rfl, rfl, rfl, rfl⟩
          · exact Or.inl ⟨rfl, rfl, rfl, rfl, rfl⟩
      | false =>
          have hr : sh.isRunning = false := by
            cases hb : sh.isRunning
            · rfl
            · rw [hprev, hb] at hc
              cases hc
          rw [if_neg (by simp)]
          exact Or.inr (Or.inl ⟨rfl, hr, rfl, rfl, rfl, rfl, rfl⟩)
  | waitTask =>
      unfold stepThread
      dsimp only
      cases hatt : att attempt with
      | thrown e =>
          rcases stepCatch_spec cfg sh
            ⟨att, nb, trig, .waitTask, attempt, notifK, recId, startedAt⟩
            attempt e with ⟨h1, h2, h3⟩ | ⟨f, hf, h1, h2, h3⟩
          · exact Or.inr (Or.inr (Or.inl
              ⟨rfl, by rw [h1], by rw [h1], h2, h3, Or.inl (by rw [h1])⟩))
          · exact Or.inr (Or.inr (Or.inr ⟨rfl, h2, h3, f, hf, h1⟩))
      | ok v =>
          dsimp only
          split
          · -- well-behaved notifier: success block settles the thread
            refine Or.inr (Or.inr (Or.inr ⟨rfl, rfl, rfl, fun r =>
              { r with
                  endedAt := some sh.clk
                  duration := some (sh.clk - r.startedAt)
                  status := RunStatus.success },
              fun r => by simp, rfl⟩))
          · -- the notifier's synchronous throw falls into the catch
            rename_i e2 heq
            rcases stepCatch_spec cfg
              { sh with
                  history := finalizeAt sh.history recId (fun r =>
                    { r with
                        endedAt := some sh.clk
                        duration := some (sh.clk - r.startedAt)
                        status := RunStatus.success })
                  clk := sh.clk + 1 }
              ⟨att, nb, trig, .waitTask, attempt,
                (sendNotification (T := T) cfg nb notifK
                  { taskName := cfg.name, event := .success,
                    timestamp := sh.clk,
                    duration := some (sh.clk - startedAt), result := some v,
                    attemptsMade := some attempt }).2.1, recId, startedAt⟩
              attempt e2 with ⟨h1, h2, h3⟩ | ⟨f, hf, h1, h2, h3⟩
            · refine Or.inr (Or.inr (Or.inl
                ⟨rfl, by rw [h1], by rw [h1], h2, h3, Or.inr
                  ⟨fun r =>
                    { r with
                        endedAt := some sh.clk
                        duration := some (sh.clk - r.startedAt)
                        status := RunStatus.success },
                   fun r => by simp, by rw [h1]⟩⟩))
            · refine Or.inr (Or.inr (Or.inr ⟨rfl, by rw [h2], h3, ?_⟩))
              refine ⟨fun r => f
                { r with
                    endedAt := some sh.clk
                    duration := some (sh.clk - r.startedAt)
                    status := RunStatus.success },
                fun r => hf _, ?_⟩
              rw [h1]
              exact finalizeAt_finalizeAt sh.history recId f (fun r =>
                { r with
                    endedAt := some sh.clk
                    duration := some (sh.clk - r.startedAt)
                    status := RunStatus.success })

theorem no_running_after_finalize (hst : List (Nat × RunHistory)) (c : Nat)
    (f : RunHistory → RunHistory)
    (hf : ∀ r, (f r).status ≠ RunStatus.running)
    (hall : ∀ p ∈ hst, p.2.status = RunStatus.running → p.1 = c) :
    ∀ p ∈ finalizeAt hst c f, p.2.status ≠ RunStatus.running := by
  intro p hp hrun
  rcases mem_finalizeAt _ _ _ p hp with ⟨q, hq, hpe⟩
  by_cases hqc : q.1 = c
  · rw [hpe, if_pos hqc] at hrun
    exact hf q.2 hrun
  · rw [hpe, if_neg hqc] at hrun
    exact hqc (hall q hq hrun)

theorem finalizeAt_ids_lt (hst : List (Nat × RunHistory)) (c : Nat)
    (f : RunHistory → RunHistory) (n : Nat) (h : ∀ p ∈ hst, p.1 < n) :
    ∀ p ∈ finalizeAt hst c f, p.1 < n := by
  intro p hp
  rcases mem_finalizeAt _ _ _ p hp with ⟨q, hq, hpe⟩
  by_cases hqc : q.1 = c
  · rw [hpe, if_pos hqc]
    exact h q hq
  · rw [hpe, if_neg hqc]
    exact h q hq

/-- Each scheduler step preserves the invariant (under
`preventOverlap`). -/
theorem inv_stepI (cfg : Cfg) (hprev : cfg.preventOverlap = true)
    (sys : Sys T) (hinv : InvProp sys) (i : Nat) :
    InvProp (stepI cfg sys i) := by
  obtain ⟨hnd, hlt, hcase⟩ := hinv
  cases hti : sys.threads[i]? with
  | none =>
      unfold stepI
      rw [hti]
      exact ⟨hnd, hlt, hcase⟩
  | some t =>
      have hred : stepI cfg sys i =
          { shared := (stepThread cfg sys.shared t).1,
            threads := sys.threads.set i (stepThread cfg sys.shared t).2 } := by
        unfold stepI
        rw [hti]
      rw [hred]
      have hilen : i < sys.threads.length := by
        by_contra hcon
        push_neg at hcon
        rw [List.getElem?_eq_none hcon] at hti
        cases hti
      have hgetI : (sys.threads.set i (stepThread cfg sys.shared t).2)[i]? =
          some (stepThread cfg sys.shared t).2 :=
        List.getElem?_set_self (by simpa using hilen)
      have hgetJ : ∀ j, j ≠ i →
          (sys.threads.set i (stepThread cfg sys.shared t).2)[j]? =
          sys.threads[j]? := fun j hj =>
        List.getElem?_set_ne (fun he => hj he.symm)
      rcases stepThread_spec cfg hprev sys.shared t with
        ⟨ha1, ha2, ha3, ha4, ha5⟩ |
        ⟨_, hbr, hb1, hb2, hb3, hb4, hb5⟩ |
        ⟨hc0, hc1, hc2, hc3, hc4, hc5⟩ |
        ⟨hc0, hc1, hc3, f, hf, hh⟩
      · -- (A) inert step
        refine ⟨?_, ?_, ?_⟩
        · dsimp only
          rw [ha1]
          exact hnd
        · dsimp only
          intro p hp
          rw [ha2]
          exact hlt p (by rwa [ha1] at hp)
        · rcases hcase with ⟨hact, hrec⟩ |
            ⟨i₀, t₀, hget, hact0, hrun, hothers, hrec⟩
          · left
            dsimp only
            refine ⟨?_, ?_⟩
            · intro j u hu
              rcases eq_or_ne j i with rfl | hji
              · rw [hgetI] at hu
                cases hu
                rw [ha4]
                exact hact j t hti
              · rw [hgetJ j hji] at hu
                exact hact j u hu
            · intro p hp
              exact hrec p (by rwa [ha1] at hp)
          · right
            dsimp only
            rcases eq_or_ne i i₀ with rfl | hii
            · have ht0 : t₀ = t := Option.some.inj (hget.symm.trans hti)
              refine ⟨i, (stepThread cfg sys.shared t).2, hgetI, ?_, ?_, ?_, ?_⟩
              · rw [ha4, ← ht0]
                exact hact0
              · rw [ha3]
                exact hrun
              · intro j u hji hu
                rw [hgetJ j hji] at hu
                exact hothers j u hji hu
              · intro p hp hp2
                rw [ha5, ← ht0]
                exact hrec p (by rwa [ha1] at hp) hp2
            · refine ⟨i₀, t₀, ?_, hact0, ?_, ?_, ?_⟩
              · rw [hgetJ i₀ (fun he => hii he.symm)]
                exact hget
              · rw [ha3]
                exact hrun
              · intro j u hji hu
                rcases eq_or_ne j i with rfl | hji2
                · rw [hgetI] at hu
                  cases hu
                  rw [ha4]
                  exact hothers j t hii hti
                · rw [hgetJ j hji2] at hu
                  exact hothers j u hji hu
              · intro p hp hp2
                exact hrec p (by rwa [ha1] at hp) hp2
      · -- (B) mark-running / record creation
        have hactA : ∀ (j : Nat) (u : Thread T), sys.threads[j]? = some u →
            isActive u = false := by
          rcases hcase with ⟨hact, _⟩ | ⟨i₀, t₀, _, _, hrun, _, _⟩
          · exact hact
          · rw [hbr] at hrun
            cases hrun
        have hrecA : ∀ p ∈ sys.shared.history,
            p.2.status ≠ RunStatus.running := by
          rcases hcase with ⟨_, hrec⟩ | ⟨i₀, t₀, _, _, hrun, _, _⟩
          · exact hrec
          · rw [hbr] at hrun
            cases hrun
        have hsub : ∀ p ∈ (stepThread cfg sys.shared t).1.history,
            p = (sys.shared.nextId, startEntry sys.shared.clk t.triggeredBy) ∨
            p ∈ sys.shared.history := by
          intro p hp
          rw [hb3] at hp
          have hp' := List.take_subset _ _ hp
          rcases List.mem_cons.mp hp' with h | h
          · exact Or.inl h
          · exact Or.inr h
        refine ⟨?_, ?_, ?_⟩
        · dsimp only
          have hfresh : sys.shared.nextId ∉ sys.shared.history.map Prod.fst := by
            intro hmem
            rcases List.mem_map.mp hmem with ⟨q, hq, hq1⟩
            have := hlt q hq
            omega
          rw [hb3, List.map_take, List.map_cons]
          exact (List.nodup_cons.mpr ⟨hfresh, hnd⟩).sublist
            (List.take_sublist _ _)
        · dsimp only
          intro p hp
          rw [hb2]
          rcases hsub p hp with h | h
          · rw [h]
            omega
          · have := hlt p h
            omega
        · right
          dsimp only
          refine ⟨i, (stepThread cfg sys.shared t).2, hgetI, hb4, hb1, ?_, ?_⟩
          · intro j u hji hu
            rw [hgetJ j hji] at hu
            exact hactA j u hu
          · intro p hp hp2
            rcases hsub p hp with h | h
            · rw [h, hb5]
            · exact absurd hp2 (hrecA p h)
      · -- (C1) active thread continues
        rcases hcase with ⟨hact, _⟩ |
          ⟨i₀, t₀, hget, hact0, hrun, hothers, hrec⟩
        · rw [hact i t hti] at hc0
          cases hc0
        · rcases eq_or_ne i i₀ with rfl | hii
          · have ht0 : t₀ = t := Option.some.inj (hget.symm.trans hti)
            rw [ht0] at hrec
            have hnorun : ∀ p ∈ (stepThread cfg sys.shared t).1.history,
                p.2.status = RunStatus.running → p.1 = t.recId := by
              rcases hc5 with h | ⟨g, hg, h⟩
              · intro p hp
                exact hrec p (by rwa [h] at hp)
              · intro p hp hp2
                exact absurd hp2
                  (no_running_after_finalize sys.shared.history t.recId g hg
                    hrec p (by rwa [h] at hp))
            refine ⟨?_, ?_, ?_⟩
            · dsimp only
              rcases hc5 with h | ⟨g, hg, h⟩
              · rw [h]
                exact hnd
              · rw [h, finalizeAt_map_fst]
                exact hnd
            · dsimp only
              intro p hp
              rw [hc1]
              rcases hc5 with h | ⟨g, hg, h⟩
              · exact hlt p (by rwa [h] at hp)
              · exact finalizeAt_ids_lt sys.shared.history t.recId g
                  sys.shared.nextId hlt p (by rwa [h] at hp)
            · right
              dsimp only
              refine ⟨i, (stepThread cfg sys.shared t).2, hgetI, hc3, ?_, ?_, ?_⟩
              · rw [hc2]
                exact hrun
              · intro j u hji hu
                rw [hgetJ j hji] at hu
                exact hothers j u hji hu
              · intro p hp hp2
                rw [hc4]
                exact hnorun p hp hp2
          · rw [hothers i t hii hti] at hc0
            cases hc0
      · -- (C2) active thread settles
        rcases hcase with ⟨hact, _⟩ |
          ⟨i₀, t₀, hget, hact0, hrun, hothers, hrec⟩
        · rw [hact i t hti] at hc0
          cases hc0
        · rcases eq_or_ne i i₀ with rfl | hii
          · have ht0 : t₀ = t := Option.some.inj (hget.symm.trans hti)
            rw [ht0] at hrec
            refine ⟨?_, ?_, ?_⟩
            · dsimp only
              rw [hh, finalizeAt_map_fst]
              exact hnd
            · dsimp only
              intro p hp
              rw [hc1]
              exact finalizeAt_ids_lt sys.shared.history t.recId f
                sys.shared.nextId hlt p (by rwa [hh] at hp)
            · left
              dsimp only
              refine ⟨?_, ?_⟩
              · intro j u hu
                rcases eq_or_ne j i with rfl | hji
                · rw [hgetI] at hu
                  cases hu
                  exact hc3
                · rw [hgetJ j hji] at hu
                  exact hothers j u hji hu
              · intro p hp
                exact no_running_after_finalize sys.shared.history t.recId f
                  hf hrec p (by rwa [hh] at hp)
          · rw [hothers i t hii hti] at hc0
            cases hc0

/-- Every reachable state satisfies the invariant (under
`preventOverlap`). -/
theorem reach_inv (cfg : Cfg) (hprev : cfg.preventOverlap = true) :
    ∀ sys : Sys T, Reach cfg sys → InvProp sys := by
  intro sys hr
  induction hr with
  | init scripts =>
      refine ⟨by simp [mkSys], by simp [mkSys], Or.inl ⟨?_, by simp [mkSys]⟩⟩
      intro j t hj
      have hmem : t ∈ (mkSys scripts : Sys T).threads :=
        List.getElem?_mem hj
      rcases List.mem_map.mp hmem with ⟨s, hs, he⟩
      rw [← he]
      rfl
  | step sys i hr ih => exact inv_stepI cfg hprev sys ih i

/-- C4 counterexample scripts: two invocations (one manual, one
scheduled) of a task that never settles its first attempt. -/
def scriptsC4 : List ((Nat → TaskOutcome Nat) × (Nat → NCall) × Trigger) :=
  [(fun _ => .thrown (.error 0), fun _ => .ok, .manual),
   (fun _ => .thrown (.error 0), fun _ => .ok, .schedule)]

/-- C4 as stated ("with any preventOverlap setting") is false: with the
default `preventOverlap = false`, letting a second invocation enter
while the first is suspended at its attempt's await produces a reachable
state whose history holds **two** records with status `running`. -/
theorem C4_counterexample :
    (mkCfg {}).preventOverlap = false ∧
    Reach (mkCfg {}) (stepI (mkCfg {}) (stepI (mkCfg {})
      (mkSys scriptsC4) 0) 1) ∧
    runningCount (stepI (mkCfg {}) (stepI (mkCfg {})
      (mkSys scriptsC4) 0) 1).shared.history = 2 :=
  ⟨rfl,
   Reach.step _ 1 (Reach.step _ 0 (Reach.init scriptsC4)),
   rfl⟩

/-- C4 (amended: provided `preventOverlap` is true; with it false, two
overlapping invocations each insert a `running` record, see the
counterexample): in every reachable state of the interleaved model —
any number of concurrent invocations, any scheduling, any task/notifier
behaviours — at most one record in the task's history has status
`running`. -/
theorem C4_at_most_one_running (cfg : Cfg) (sys : Sys T)
    (hprev : cfg.preventOverlap = true) (hreach : Reach cfg sys) :
    runningCount sys.shared.history ≤ 1 :=
  invProp_runningCount sys (reach_inv cfg hprev sys hreach)

/-- C4 witness scripts: one always-failing invocation. -/
def scriptsC4w : List ((Nat → TaskOutcome Nat) × (Nat → NCall) × Trigger) :=
  [(fun _ => .thrown (.error 0), fun _ => .ok, .manual)]

/-- Witness for C4 at a concrete reachable state: after the single
invocation's entry step under `preventOverlap`, at most one record is
running (here exactly one). -/
theorem C4_at_most_one_running_witness :
    (mkCfg { preventOverlap := some true }).preventOverlap = true ∧
    runningCount (stepI (mkCfg { preventOverlap := some true })
      (mkSys scriptsC4w) 0).shared.history ≤ 1 :=
  ⟨rfl,
   C4_at_most_one_running (mkCfg { preventOverlap := some true }) _ rfl
     (Reach.step _ 0 (Reach.init scriptsC4w))⟩

/-- A concrete configuration for the C7 witness: linear strategy, base
delay 1000, cap 1500. -/
def cfgW7 : Cfg :=
  mkCfg { retryDelay := some 1000, backoffStrategy := some Backoff.linear, maxRetryDelay := some 1500 }

/-- Witness for C7: at `cfgW7` and retry number 3 the computed linear
delay 3000 is clamped to the cap 1500. -/
theorem C7_calculateRetryDelay_spec_witness :
    1 ≤ 3 ∧ calculateRetryDelay cfgW7 3 = 1500 :=
  ⟨by decide, C7_calculateRetryDelay_spec cfgW7 3 (by decide)⟩

end CronSafe
